import Mathlib

/-! # The time-based XAH payment hook (`src/timebased.c`)

A shallow embedding of the single function `hook` of `timebased.c` and of the host calls it
makes, followed by the properties of the rate-limited payment gate.

Conventions of the embedding.

* Byte strings (account ids, parameter names and values, state keys) are lists of naturals.
* The hook reads and writes one slice of foreign state: the namespace `address_ns` of the
  account `hook_accid`.  That slice is a `Store`, a map from the key bytes handed to
  `state_foreign` / `state_foreign_set` to the 8-byte integer stored under them.  Keys are
  told apart as byte strings: the 3-byte key `XAH`, the 7-byte key `SECONDS` and the 20-byte
  recipient ids never coincide.
* `ledger_last_time()` is a number of seconds since the ledger epoch, so a natural number;
  of the `int64_t` variable `ts` the source uses only the 64-bit pattern.
* "The hook emits a payment" is read as: the hook hands that payment to `emit`.  The return
  code of `emit` is part of the host and recorded with the call.
* `uint64_t` variables are naturals reduced modulo `2 ^ 64` wherever C would wrap.
* A local that the source declares without an initialiser starts with the contents given by
  `Host.uninit`; a host call that fails leaves the buffer it was given as it was.
* Every host call with an effect is appended, in program order, to `Result.effects`.
-/

namespace Timebased

/-! ## Data model -/

/-- A byte string. -/
abbrev Bytes := List Nat

/-- The foreign-state slice the hook works on: key bytes to the stored 8-byte integer. -/
abbrev Store := Bytes → Option Nat

/-- The store after a successful write of `v` under `key`. -/
def Store.set (st : Store) (key : Bytes) (v : Nat) : Store :=
  fun k => if k = key then some v else st k

/-- Range of a `uint64_t`. -/
def U64 : Nat := 2 ^ 64

/-- Line 44: `address_param`, the bytes of "ADDRESS". -/
def address_param : Bytes := [65, 68, 68, 82, 69, 83, 83]

/-- Line 47: `value_key`, the bytes of "XAH". -/
def value_key : Bytes := [88, 65, 72]

/-- Line 48: `seconds_key`, the bytes of "SECONDS". -/
def seconds_key : Bytes := [83, 69, 67, 79, 78, 68, 83]

/-- Modelled from the spec: the error codes of `hookapi.h`, which is not among the sources.
The spec only speaks of an absence signal; the hook only tests the sign. -/
def DOESNT_EXIST : Int := -5

/-- Modelled from the spec: the short-read signal of `hookapi.h` (see `DOESNT_EXIST`). -/
def TOO_SMALL : Int := -4

/-- Modelled from the spec: `PREPARE_PAYMENT_SIMPLE(tx, drops, to, dest_tag, src_tag)` comes
from `hookapi.h`, which is not among the sources.  The spec describes the result as a simple
native payment instruction (destination, amount, two reserved fields); the serialised blob
is represented by these four fields. -/
structure Payment where
  drops : Nat
  dest : Bytes
  dest_tag : Nat
  src_tag : Nat
deriving DecidableEq, Repr

/-- Modelled from the spec: the macro `PREPARE_PAYMENT_SIMPLE` (see `Payment`). -/
def PREPARE_PAYMENT_SIMPLE (drops : Nat) (dest : Bytes) (dest_tag src_tag : Nat) : Payment :=
  { drops := drops, dest := dest, dest_tag := dest_tag, src_tag := src_tag }

/-- The five `TRACESTR` lines of the source, in source order (lines 102, 114, 130, 138, 147). -/
inductive TraceMsg where
  | seconds_block
  | drops_block
  | time_not_passed
  | executed
  | first_time
deriving DecidableEq, Repr

/-- A host call with an effect outside the hook's own variables. -/
inductive Effect where
  | etxn_reserve (count : Nat)
  | state_foreign (key : Bytes)
  | state_foreign_set (key : Bytes) (value : Nat)
  | emit (tx : Payment) (code : Int)
  | trace (msg : TraceMsg)
deriving DecidableEq, Repr

/-- How an invocation ends. -/
inductive Outcome where
  | accept (code : Int)
  | rollback (code : Int)
deriving DecidableEq, Repr

/-- Contents of the locals that the source declares without an initialiser
(`drops`, `seconds`, `temp_seconds`, `temp_drops`, `last_ts`) before the first write. -/
structure Locals where
  drops : Nat
  seconds : Nat
  temp_seconds : Nat
  temp_drops : Nat
  last_ts : Nat

/-- Everything the host supplies to one invocation. -/
structure Host where
  /-- Result of `hook_account`: the account the hook is installed on. -/
  hook_accid : Bytes
  /-- Result of `otxn_field(sfAccount)`: the origin account of the triggering transaction. -/
  otxn_account : Bytes
  /-- Result of `otxn_type()`. -/
  otxn_type : Int
  /-- Result of `ledger_last_time()`, seconds since the ledger epoch. -/
  ledger_last_time : Nat
  /-- The parameters of the triggering transaction, by name. -/
  otxn_params : Bytes → Option Bytes
  /-- The foreign-state slice before the invocation. -/
  state : Store
  /-- Return code of `state_foreign_set` for a key; a negative code is a rejected write. -/
  state_foreign_set_result : Bytes → Int
  /-- Return code of `emit`. -/
  emit_result : Int
  /-- Contents of the uninitialised locals. -/
  uninit : Locals

/-- The state threaded through the body of `hook`. -/
structure Run where
  state : Store
  effects : List Effect

/-- What one invocation leaves behind. -/
structure Result where
  state : Store
  effects : List Effect
  outcome : Outcome

/-! ## Host calls -/

/-- Value of a little-endian byte string. -/
def le_val : Bytes → Nat
  | [] => 0
  | b :: bs => b % 256 + 256 * le_val bs

/-- An 8-byte little-endian variable holding `old` after its first `bs.length` bytes were
overwritten with `bs`. -/
def poke (old : Nat) (bs : Bytes) : Nat :=
  (le_val bs + old / 256 ^ bs.length * 256 ^ bs.length) % U64

/-- The eight bytes of a `uint64_t` in memory, least significant first. -/
def u64_bytes (v : Nat) : Bytes :=
  [v % 256, v / 256 % 256, v / 65536 % 256, v / 16777216 % 256, v / 4294967296 % 256,
    v / 1099511627776 % 256, v / 281474976710656 % 256, v / 72057594037927936 % 256]

/-- Modelled from the spec: the host's `otxn_param(buf, cap, name)`, "returning either the
byte value and its length or an absence/short-read signal".  The return code. -/
def otxn_param (ps : Bytes → Option Bytes) (cap : Nat) (name : Bytes) : Int :=
  match ps name with
  | none => DOESNT_EXIST
  | some v => if cap < v.length then TOO_SMALL else (v.length : Int)

/-- Modelled from the spec: the bytes `otxn_param` wrote; none when the call failed. -/
def otxn_param_bytes (ps : Bytes → Option Bytes) (cap : Nat) (name : Bytes) : Bytes :=
  match ps name with
  | none => []
  | some v => if cap < v.length then [] else v

/-- Modelled from the spec: the host's `state_foreign` on an 8-byte buffer holding `buf`:
the return code and the buffer afterwards.  An absent key leaves the buffer untouched. -/
def state_foreign (st : Store) (key : Bytes) (buf : Nat) : Int × Nat :=
  match st key with
  | none => (DOESNT_EXIST, buf)
  | some v => (8, v % U64)

/-- Adds one effect to the log. -/
def Run.log (r : Run) (e : Effect) : Run :=
  { r with effects := r.effects ++ [e] }

/-- Modelled from the spec: the host's `state_foreign_set` of the 8-byte value `v`: the call
is logged and the store changes unless the host rejects the write. -/
def Run.state_foreign_set (r : Run) (code : Int) (key : Bytes) (v : Nat) : Run :=
  { state := if code < 0 then r.state else r.state.set key v,
    effects := r.effects ++ [Effect.state_foreign_set key v] }

/-! ## The hook -/

/-- The function `hook` of `timebased.c`, lines 40 to 153. -/
def hook (h : Host) : Result :=
  -- line 54
  let r0 : Run := { state := h.state, effects := [Effect.etxn_reserve 1] }
  -- lines 57-66
  let equal : Bool := decide (h.hook_accid = h.otxn_account)
  -- line 70: the read of `ADDRESS` that line 119 repeats; its return code is not looked at
  -- line 73: only the 64-bit pattern of `ts` is used (unsigned comparison, raw bytes)
  let ts : Nat := h.ledger_last_time % U64
  -- line 76
  let tt : Int := h.otxn_type
  -- lines 83-86
  let rd := state_foreign r0.state value_key h.uninit.drops
  let r1 := r0.log (Effect.state_foreign value_key)
  let drops0 : Nat := if rd.1 < 0 then 1000000 else rd.2
  -- lines 89-92
  let rs := state_foreign r1.state seconds_key h.uninit.seconds
  let r2 := r1.log (Effect.state_foreign seconds_key)
  let seconds0 : Nat := if rs.1 < 0 then 86400 else rs.2
  -- lines 95-104
  let new_seconds : Bool := decide (tt = 99) && decide (0 < otxn_param h.otxn_params 8 seconds_key)
  let seconds : Nat :=
    if new_seconds then poke h.uninit.temp_seconds (otxn_param_bytes h.otxn_params 8 seconds_key)
    else seconds0
  let r3 : Run :=
    if new_seconds then
      ((r2.state_foreign_set (h.state_foreign_set_result seconds_key) seconds_key seconds).log
        (Effect.trace TraceMsg.seconds_block))
    else r2
  -- lines 107-116
  let new_drops : Bool := decide (tt = 99) && decide (0 < otxn_param h.otxn_params 8 value_key)
  let drops : Nat :=
    if new_drops then poke h.uninit.temp_drops (otxn_param_bytes h.otxn_params 8 value_key)
    else drops0
  let r4 : Run :=
    if new_drops then
      ((r3.state_foreign_set (h.state_foreign_set_result value_key) value_key drops).log
        (Effect.trace TraceMsg.drops_block))
    else r3
  -- lines 119-149
  let r5 : Run :=
    if decide (tt = 99) && equal && decide (otxn_param h.otxn_params 20 address_param = 20) then
      let address_paramvalue := otxn_param_bytes h.otxn_params 20 address_param
      let last_ts : Nat := (state_foreign r4.state address_paramvalue (h.uninit.last_ts % U64)).2
      let r := r4.log (Effect.state_foreign address_paramvalue)
      let ts_check : Nat := (last_ts + seconds) % U64
      if 0 < last_ts then
        if ts < ts_check then
          r.log (Effect.trace TraceMsg.time_not_passed)
        else
          (((r.log (Effect.emit (PREPARE_PAYMENT_SIMPLE drops address_paramvalue 0 0) h.emit_result)).state_foreign_set
            (h.state_foreign_set_result address_paramvalue) address_paramvalue ts).log
              (Effect.trace TraceMsg.executed))
      else
        (((r.state_foreign_set
          (h.state_foreign_set_result address_paramvalue) address_paramvalue ts).log
            (Effect.emit (PREPARE_PAYMENT_SIMPLE drops address_paramvalue 0 0) h.emit_result)).log
              (Effect.trace TraceMsg.first_time))
    else r4
  -- line 150
  { state := r5.state, effects := r5.effects, outcome := Outcome.accept 0 }

/-! ## Views on one invocation

The values of the locals of `hook` at fixed program points, as functions of the host.  Each is
the corresponding sub-term of `hook`; `hook_eq` checks that by unfolding. -/

/-- The test of lines 95 and 98: an `invoke` that carries a readable `SECONDS` parameter. -/
def new_seconds (h : Host) : Bool :=
  decide (h.otxn_type = 99) && decide (0 < otxn_param h.otxn_params 8 seconds_key)

/-- The test of lines 107 and 110: an `invoke` that carries a readable `XAH` parameter. -/
def new_drops (h : Host) : Bool :=
  decide (h.otxn_type = 99) && decide (0 < otxn_param h.otxn_params 8 value_key)

/-- The local `seconds` after line 92. -/
def loaded_seconds (h : Host) : Nat :=
  if (state_foreign h.state seconds_key h.uninit.seconds).1 < 0 then 86400
  else (state_foreign h.state seconds_key h.uninit.seconds).2

/-- The local `drops` after line 86. -/
def loaded_drops (h : Host) : Nat :=
  if (state_foreign h.state value_key h.uninit.drops).1 < 0 then 1000000
  else (state_foreign h.state value_key h.uninit.drops).2

/-- The local `seconds` after line 104: the cooldown in effect for the invocation. -/
def cooldown_seconds (h : Host) : Nat :=
  if new_seconds h then poke h.uninit.temp_seconds (otxn_param_bytes h.otxn_params 8 seconds_key)
  else loaded_seconds h

/-- The local `drops` after line 116: the payment amount in effect for the invocation. -/
def payment_amount (h : Host) : Nat :=
  if new_drops h then poke h.uninit.temp_drops (otxn_param_bytes h.otxn_params 8 value_key)
  else loaded_drops h

/-- The run after line 104. -/
def seconds_run (h : Host) : Run :=
  if new_seconds h then
    (Run.state_foreign_set
      { state := h.state,
        effects := [Effect.etxn_reserve 1, Effect.state_foreign value_key,
          Effect.state_foreign seconds_key] }
      (h.state_foreign_set_result seconds_key) seconds_key (cooldown_seconds h)).log
        (Effect.trace TraceMsg.seconds_block)
  else
    { state := h.state,
      effects := [Effect.etxn_reserve 1, Effect.state_foreign value_key,
        Effect.state_foreign seconds_key] }

/-- The run after line 116. -/
def config_run (h : Host) : Run :=
  if new_drops h then
    ((seconds_run h).state_foreign_set (h.state_foreign_set_result value_key) value_key
      (payment_amount h)).log (Effect.trace TraceMsg.drops_block)
  else seconds_run h

/-- The condition of line 119. -/
def payment_guard (h : Host) : Bool :=
  decide (h.otxn_type = 99) && decide (h.hook_accid = h.otxn_account) &&
    decide (otxn_param h.otxn_params 20 address_param = 20)

/-- The buffer `address_paramvalue` after line 119. -/
def target (h : Host) : Bytes :=
  otxn_param_bytes h.otxn_params 20 address_param

/-- The local `last_ts` after line 123. -/
def last_ts (h : Host) : Nat :=
  (state_foreign (config_run h).state (target h) (h.uninit.last_ts % U64)).2

/-- The local `ts_check` of line 124. -/
def ts_check (h : Host) : Nat :=
  (last_ts h + cooldown_seconds h) % U64

/-- The payment built on lines 134 and 144. -/
def payment (h : Host) : Payment :=
  PREPARE_PAYMENT_SIMPLE (payment_amount h) (target h) 0 0

/-- The run after line 149. -/
def payment_run (h : Host) : Run :=
  if payment_guard h then
    if 0 < last_ts h then
      if h.ledger_last_time % U64 < ts_check h then
        ((config_run h).log (Effect.state_foreign (target h))).log
          (Effect.trace TraceMsg.time_not_passed)
      else
        (((((config_run h).log (Effect.state_foreign (target h))).log
          (Effect.emit (payment h) h.emit_result)).state_foreign_set
            (h.state_foreign_set_result (target h)) (target h) (h.ledger_last_time % U64)).log
              (Effect.trace TraceMsg.executed))
    else
      (((((config_run h).log (Effect.state_foreign (target h))).state_foreign_set
        (h.state_foreign_set_result (target h)) (target h) (h.ledger_last_time % U64)).log
          (Effect.emit (payment h) h.emit_result)).log
            (Effect.trace TraceMsg.first_time))
  else config_run h

/-- The decision of lines 126 and 128: the branch taken does emit. -/
def authorized (h : Host) : Bool :=
  !(decide (0 < last_ts h)) || !(decide (h.ledger_last_time % U64 < ts_check h))

/-! ## Observations on a result -/

/-- The payments handed to `emit`, in order. -/
def emitted (es : List Effect) : List Payment :=
  es.filterMap fun e => match e with
    | Effect.emit tx _ => some tx
    | _ => none

/-- The calls of `state_foreign_set`, in order: key and value. -/
def written (es : List Effect) : List (Bytes × Nat) :=
  es.filterMap fun e => match e with
    | Effect.state_foreign_set key v => some (key, v)
    | _ => none

/-- The payments the invocation handed to `emit`. -/
def Result.emits (r : Result) : List Payment := emitted r.effects

/-- The durable writes the invocation issued. -/
def Result.writes (r : Result) : List (Bytes × Nat) := written r.effects

/-- The durable writes to recipient records: those under a key other than the two
configuration keys. -/
def Result.recipient_writes (r : Result) : List (Bytes × Nat) :=
  r.writes.filter fun w => decide (w.1 ≠ value_key) && decide (w.1 ≠ seconds_key)

/-- The keys handed to `state_foreign`, in order. -/
def read_keys (es : List Effect) : List Bytes :=
  es.filterMap fun e => match e with
    | Effect.state_foreign key => some key
    | _ => none

/-- The durable reads the invocation issued. -/
def Result.reads (r : Result) : List Bytes := read_keys r.effects

/-- The host calls of lines 95 to 116, the two override blocks, in order. -/
def config_effects (h : Host) : List Effect :=
  (if new_seconds h then
      [Effect.state_foreign_set seconds_key (cooldown_seconds h),
        Effect.trace TraceMsg.seconds_block]
    else []) ++
  (if new_drops h then
      [Effect.state_foreign_set value_key (payment_amount h), Effect.trace TraceMsg.drops_block]
    else [])

/-- The host calls of lines 119 to 149, the payment block, in order. -/
def gate_effects (h : Host) : List Effect :=
  if payment_guard h then
    Effect.state_foreign (target h) ::
      (if 0 < last_ts h then
        if h.ledger_last_time % U64 < ts_check h then [Effect.trace TraceMsg.time_not_passed]
        else
          [Effect.emit (payment h) h.emit_result,
            Effect.state_foreign_set (target h) (h.ledger_last_time % U64),
            Effect.trace TraceMsg.executed]
      else
        [Effect.state_foreign_set (target h) (h.ledger_last_time % U64),
          Effect.emit (payment h) h.emit_result,
          Effect.trace TraceMsg.first_time])
  else []

/-- The parameters `ps` with the parameter `name` removed. -/
def drop_param (ps : Bytes → Option Bytes) (name : Bytes) : Bytes → Option Bytes :=
  fun k => if k = name then none else ps k

/-- A self-originated invoke at ledger time `t` whose `ADDRESS` is `R` and which carries
neither a `SECONDS` nor an `XAH` parameter. -/
def plain_claim (h : Host) (R : Bytes) (t : Nat) : Prop :=
  h.otxn_type = 99 ∧ h.otxn_account = h.hook_accid ∧
    h.otxn_params address_param = some R ∧
    h.otxn_params seconds_key = none ∧ h.otxn_params value_key = none ∧
    h.ledger_last_time = t

/-! ## Concrete invocations

Small hosts on which the statements below are evaluated. -/

/-- The account the hook is installed on, in the examples. -/
def owner : Bytes := List.replicate 20 1

/-- Another account. -/
def stranger : Bytes := List.replicate 20 2

/-- A recipient. -/
def recipient : Bytes := List.replicate 20 7

/-- The empty store. -/
def Store.empty : Store := fun _ => none

/-- The parameters given by an association list. -/
def params_of (ps : List (Bytes × Bytes)) : Bytes → Option Bytes :=
  fun name => (ps.find? fun p => decide (p.1 = name)).map Prod.snd

/-- A host whose writes and emission succeed and whose uninitialised locals hold zero. -/
def host_of (origin : Bytes) (tt : Int) (t : Nat) (ps : List (Bytes × Bytes)) (st : Store) :
    Host where
  hook_accid := owner
  otxn_account := origin
  otxn_type := tt
  ledger_last_time := t
  otxn_params := params_of ps
  state := st
  state_foreign_set_result := fun _ => 8
  emit_result := 32
  uninit := { drops := 0, seconds := 0, temp_seconds := 0, temp_drops := 0, last_ts := 0 }

/-- A store with cooldown 10, amount 500000 and the given timestamp for `recipient`. -/
def paid_store (T : Nat) : Store :=
  ((Store.empty.set seconds_key 10).set value_key 500000).set recipient T

/-- A store with cooldown `2 ^ 64 - 50`, amount 500000 and timestamp 100 for `recipient`. -/
def long_cooldown_store : Store :=
  ((Store.empty.set seconds_key (2 ^ 64 - 50)).set value_key 500000).set recipient 100

/-- A store with cooldown 10, amount 500000 and no recipient record. -/
def fresh_store : Store :=
  (Store.empty.set seconds_key 10).set value_key 500000

/-- A self-originated invoke for `recipient` at time `t` on the store `st`. -/
def claim_at (t : Nat) (st : Store) : Host :=
  host_of owner 99 t [(address_param, recipient)] st

/-- An invoke from another account that carries both overrides and no recipient. -/
def stranger_override : Host :=
  host_of stranger 99 1000 [(seconds_key, [1, 0, 0, 0, 0, 0, 0, 0]),
    (value_key, [0, 0, 0, 0, 0, 0, 0, 1])] fresh_store

/-- A self-originated invoke that carries a `SECONDS` override and no recipient. -/
def owner_override : Host :=
  host_of owner 99 1000 [(seconds_key, [60, 0, 0, 0, 0, 0, 0, 0])] fresh_store

/-- A payment transaction (type 0) from the owner that carries every parameter. -/
def not_an_invoke : Host :=
  host_of owner 0 1000 [(address_param, recipient), (seconds_key, [60, 0, 0, 0, 0, 0, 0, 0]),
    (value_key, [1, 0, 0, 0, 0, 0, 0, 0])] fresh_store

/-- A self-originated invoke at 90000 for `recipient`, whose timestamp is 100, on a store
without configuration. -/
def unconfigured : Host :=
  claim_at 90000 (Store.empty.set recipient 100)

/-- The first invoke for `recipient`, at 100, on a host whose `emit` fails. -/
def emit_fails : Host :=
  { claim_at 100 fresh_store with emit_result := -11 }

/-- The first invoke for `recipient`, at 100, on a host that rejects every write. -/
def write_rejected : Host :=
  { claim_at 100 fresh_store with state_foreign_set_result := fun _ => -9 }

/-- The invoke for `recipient` at 105 that follows `write_rejected`. -/
def after_write_rejected : Host :=
  claim_at 105 (hook write_rejected).state

/-- The first invoke for `recipient`, at 100, with the never-initialised local `last_ts`
holding 1000 instead of 0. -/
def dirty_last_ts : Host :=
  { claim_at 100 fresh_store with
    uninit := { drops := 0, seconds := 0, temp_seconds := 0, temp_drops := 0, last_ts := 1000 } }

/-- A self-originated invoke at 200 for `recipient`, paid at 100, that carries `SECONDS = 60`
and `XAH = 7`. -/
def owner_sets_both_and_pays : Host :=
  host_of owner 99 200 [(address_param, recipient), (seconds_key, u64_bytes 60),
    (value_key, u64_bytes 7)] (paid_store 100)

/-- A self-originated invoke at 100 whose `ADDRESS` has 3 bytes and which carries
`SECONDS = 60`. -/
def short_address : Host :=
  host_of owner 99 100 [(address_param, [7, 7, 7]), (seconds_key, u64_bytes 60)] fresh_store

/-! ## Unfolding lemmas -/

theorem hook_eq (h : Host) :
    hook h =
      { state := (payment_run h).state, effects := (payment_run h).effects,
        outcome := Outcome.accept 0 } := by
  rfl

theorem seconds_run_state (h : Host) (k : Bytes) :
    (seconds_run h).state k =
      if new_seconds h = true ∧ 0 ≤ h.state_foreign_set_result seconds_key ∧ k = seconds_key
      then some (cooldown_seconds h) else h.state k := by
  unfold seconds_run
  by_cases hn : new_seconds h = true
  · by_cases hr : h.state_foreign_set_result seconds_key < 0
    · simp [hn, hr, Run.log, Run.state_foreign_set, not_le.mpr hr]
    · simp [hn, hr, Run.log, Run.state_foreign_set, Store.set, not_lt.mp hr]
  · simp [hn]

theorem config_run_state (h : Host) (k : Bytes) :
    (config_run h).state k =
      if new_drops h = true ∧ 0 ≤ h.state_foreign_set_result value_key ∧ k = value_key
      then some (payment_amount h) else (seconds_run h).state k := by
  unfold config_run
  by_cases hn : new_drops h = true
  · by_cases hr : h.state_foreign_set_result value_key < 0
    · simp [hn, hr, Run.log, Run.state_foreign_set, not_le.mpr hr]
    · simp [hn, hr, Run.log, Run.state_foreign_set, Store.set, not_lt.mp hr]
  · simp [hn]

theorem payment_run_state (h : Host) (k : Bytes) :
    (payment_run h).state k =
      if payment_guard h = true ∧ authorized h = true ∧
          0 ≤ h.state_foreign_set_result (target h) ∧ k = target h
      then some (h.ledger_last_time % U64) else (config_run h).state k := by
  unfold payment_run authorized
  by_cases hg : payment_guard h = true
  · by_cases hr : h.state_foreign_set_result (target h) < 0
    · by_cases h1 : 0 < last_ts h <;> by_cases h2 : h.ledger_last_time % U64 < ts_check h <;>
        simp [hg, hr, h1, h2, Run.log, Run.state_foreign_set, not_le.mpr hr]
    · by_cases h1 : 0 < last_ts h <;> by_cases h2 : h.ledger_last_time % U64 < ts_check h <;>
        simp [hg, hr, h1, h2, Run.log, Run.state_foreign_set, Store.set, not_lt.mp hr]
  · simp [hg]

theorem seconds_run_emitted (h : Host) : emitted (seconds_run h).effects = [] := by
  unfold seconds_run
  by_cases hn : new_seconds h = true <;>
    simp [hn, emitted, Run.log, Run.state_foreign_set]

theorem config_run_emitted (h : Host) : emitted (config_run h).effects = [] := by
  have := seconds_run_emitted h
  unfold config_run
  by_cases hn : new_drops h = true
  · simp only [emitted] at this
    simp [hn, emitted, Run.log, Run.state_foreign_set, this]
  · simpa [hn] using this

theorem payment_run_emitted (h : Host) :
    emitted (payment_run h).effects =
      if payment_guard h = true ∧ authorized h = true then [payment h] else [] := by
  have := config_run_emitted h
  simp only [emitted] at this
  unfold payment_run authorized
  by_cases hg : payment_guard h = true
  · by_cases h1 : 0 < last_ts h <;> by_cases h2 : h.ledger_last_time % U64 < ts_check h <;>
      simp [hg, h1, h2, emitted, Run.log, Run.state_foreign_set, this]
  · simp [hg, emitted, this]

theorem hook_emits (h : Host) :
    (hook h).emits =
      if payment_guard h = true ∧ authorized h = true then [payment h] else [] := by
  rw [hook_eq]
  exact payment_run_emitted h

theorem hook_state (h : Host) (k : Bytes) :
    (hook h).state k =
      if payment_guard h = true ∧ authorized h = true ∧
          0 ≤ h.state_foreign_set_result (target h) ∧ k = target h
      then some (h.ledger_last_time % U64) else (config_run h).state k := by
  rw [hook_eq]
  exact payment_run_state h k

theorem seconds_run_written (h : Host) :
    written (seconds_run h).effects =
      if new_seconds h = true then [(seconds_key, cooldown_seconds h)] else [] := by
  unfold seconds_run
  by_cases hn : new_seconds h = true <;>
    simp [hn, written, Run.log, Run.state_foreign_set]

theorem config_run_written (h : Host) :
    written (config_run h).effects =
      (if new_seconds h = true then [(seconds_key, cooldown_seconds h)] else []) ++
        (if new_drops h = true then [(value_key, payment_amount h)] else []) := by
  have := seconds_run_written h
  simp only [written] at this
  unfold config_run
  by_cases hn : new_drops h = true
  · simp [hn, written, Run.log, Run.state_foreign_set, this]
  · simpa [hn, written] using this

theorem payment_run_written (h : Host) :
    written (payment_run h).effects =
      written (config_run h).effects ++
        (if payment_guard h = true ∧ authorized h = true
          then [(target h, h.ledger_last_time % U64)] else []) := by
  unfold payment_run authorized
  by_cases hg : payment_guard h = true
  · by_cases h1 : 0 < last_ts h <;> by_cases h2 : h.ledger_last_time % U64 < ts_check h <;>
      simp [hg, h1, h2, written, Run.log, Run.state_foreign_set]
  · simp [hg]

theorem hook_writes (h : Host) :
    (hook h).writes =
      (if new_seconds h = true then [(seconds_key, cooldown_seconds h)] else []) ++
        (if new_drops h = true then [(value_key, payment_amount h)] else []) ++
        (if payment_guard h = true ∧ authorized h = true
          then [(target h, h.ledger_last_time % U64)] else []) := by
  rw [hook_eq]
  show written (payment_run h).effects = _
  rw [payment_run_written, config_run_written]

theorem seconds_run_effects (h : Host) :
    (seconds_run h).effects =
      [Effect.etxn_reserve 1, Effect.state_foreign value_key, Effect.state_foreign seconds_key] ++
        (if new_seconds h = true then
          [Effect.state_foreign_set seconds_key (cooldown_seconds h),
            Effect.trace TraceMsg.seconds_block]
        else []) := by
  unfold seconds_run
  by_cases hn : new_seconds h = true <;> simp [hn, Run.log, Run.state_foreign_set]

theorem config_run_effects (h : Host) :
    (config_run h).effects =
      [Effect.etxn_reserve 1, Effect.state_foreign value_key, Effect.state_foreign seconds_key] ++
        config_effects h := by
  unfold config_run config_effects
  by_cases hn : new_drops h = true
  · simp [hn, Run.log, Run.state_foreign_set, seconds_run_effects]
  · simp [hn, seconds_run_effects]

theorem payment_run_effects (h : Host) :
    (payment_run h).effects = (config_run h).effects ++ gate_effects h := by
  unfold payment_run gate_effects
  by_cases hg : payment_guard h = true
  · by_cases h1 : 0 < last_ts h <;> by_cases h2 : h.ledger_last_time % U64 < ts_check h <;>
      simp [hg, h1, h2, Run.log, Run.state_foreign_set]
  · simp [hg]

theorem hook_effects (h : Host) :
    (hook h).effects =
      [Effect.etxn_reserve 1, Effect.state_foreign value_key, Effect.state_foreign seconds_key] ++
        config_effects h ++ gate_effects h := by
  rw [hook_eq]
  show (payment_run h).effects = _
  rw [payment_run_effects, config_run_effects]

theorem hook_outcome (h : Host) : (hook h).outcome = Outcome.accept 0 := by
  rw [hook_eq]

theorem hook_reads (h : Host) :
    (hook h).reads =
      [value_key, seconds_key] ++ (if payment_guard h = true then [target h] else []) := by
  unfold Result.reads
  rw [hook_effects]
  unfold config_effects gate_effects read_keys
  by_cases hs : new_seconds h = true <;> by_cases hd : new_drops h = true <;>
    by_cases hg : payment_guard h = true <;> by_cases h1 : 0 < last_ts h <;>
    by_cases h2 : h.ledger_last_time % U64 < ts_check h <;>
    simp [hs, hd, hg, h1, h2]

/-! ## Parameters and keys -/

theorem otxn_param_eq_twenty (ps : Bytes → Option Bytes) (name : Bytes) :
    otxn_param ps 20 name = 20 ↔ ∃ R, ps name = some R ∧ R.length = 20 := by
  unfold otxn_param
  cases hps : ps name with
  | none => simp [DOESNT_EXIST]
  | some v =>
    by_cases hv : 20 < v.length
    · simp only [hv, if_true, TOO_SMALL, Option.some.injEq, exists_eq_left']
      constructor
      · intro hc; omega
      · intro hc; omega
    · simp only [hv, if_false, Option.some.injEq, exists_eq_left']
      constructor
      · intro hc; exact_mod_cast hc
      · intro hc; exact_mod_cast hc

theorem payment_guard_iff (h : Host) :
    payment_guard h = true ↔
      h.otxn_type = 99 ∧ h.hook_accid = h.otxn_account ∧
        ∃ R, h.otxn_params address_param = some R ∧ R.length = 20 := by
  unfold payment_guard
  simp only [Bool.and_eq_true, decide_eq_true_eq, otxn_param_eq_twenty, and_assoc]

theorem target_eq (h : Host) (R : Bytes) (haddr : h.otxn_params address_param = some R)
    (hlen : R.length = 20) : target h = R := by
  simp [target, otxn_param_bytes, haddr, hlen]

theorem ne_value_key (R : Bytes) (hlen : R.length = 20) : R ≠ value_key := by
  intro hR
  rw [hR] at hlen
  simp [value_key] at hlen

theorem ne_seconds_key (R : Bytes) (hlen : R.length = 20) : R ≠ seconds_key := by
  intro hR
  rw [hR] at hlen
  simp [seconds_key] at hlen

theorem config_run_state_recipient (h : Host) (k : Bytes) (hv : k ≠ value_key)
    (hs : k ≠ seconds_key) : (config_run h).state k = h.state k := by
  rw [config_run_state, seconds_run_state]
  simp [hv, hs]

theorem last_ts_stored (h : Host) (R : Bytes) (T : Nat)
    (haddr : h.otxn_params address_param = some R) (hlen : R.length = 20)
    (hrec : h.state R = some T) : last_ts h = T % U64 := by
  unfold last_ts
  rw [target_eq h R haddr hlen, state_foreign,
    config_run_state_recipient h R (ne_value_key R hlen) (ne_seconds_key R hlen), hrec]

theorem last_ts_absent (h : Host) (R : Bytes)
    (haddr : h.otxn_params address_param = some R) (hlen : R.length = 20)
    (hrec : h.state R = none) : last_ts h = h.uninit.last_ts % U64 := by
  unfold last_ts
  rw [target_eq h R haddr hlen, state_foreign,
    config_run_state_recipient h R (ne_value_key R hlen) (ne_seconds_key R hlen), hrec]

theorem target_length (h : Host) (hg : payment_guard h = true) : (target h).length = 20 := by
  obtain ⟨_, _, R, haddr, hlen⟩ := (payment_guard_iff h).mp hg
  rw [target_eq h R haddr hlen]
  exact hlen

theorem hook_recipient_writes (h : Host) :
    (hook h).recipient_writes =
      if payment_guard h = true ∧ authorized h = true
        then [(target h, h.ledger_last_time % U64)] else [] := by
  unfold Result.recipient_writes
  rw [hook_writes]
  by_cases hg : payment_guard h = true
  · have hl := target_length h hg
    have h1 := ne_value_key (target h) hl
    have h2 := ne_seconds_key (target h) hl
    by_cases hs : new_seconds h = true <;> by_cases hd : new_drops h = true <;>
      by_cases ha : authorized h = true <;> simp [hg, hs, hd, ha, h1, h2]
  · by_cases hs : new_seconds h = true <;> by_cases hd : new_drops h = true <;>
      simp [hg, hs, hd]

theorem hook_state_recipient (h : Host) (k : Bytes) (hv : k ≠ value_key) (hs : k ≠ seconds_key) :
    (hook h).state k =
      if payment_guard h = true ∧ authorized h = true ∧
          0 ≤ h.state_foreign_set_result (target h) ∧ k = target h
      then some (h.ledger_last_time % U64) else h.state k := by
  rw [hook_state, config_run_state_recipient h k hv hs]

theorem new_seconds_absent (h : Host) (hs : h.otxn_params seconds_key = none) :
    new_seconds h = false := by
  simp [new_seconds, otxn_param, hs, DOESNT_EXIST]

theorem new_drops_absent (h : Host) (hd : h.otxn_params value_key = none) :
    new_drops h = false := by
  simp [new_drops, otxn_param, hd, DOESNT_EXIST]

theorem new_seconds_not_invoke (h : Host) (htt : h.otxn_type ≠ 99) : new_seconds h = false := by
  simp [new_seconds, htt]

theorem new_drops_not_invoke (h : Host) (htt : h.otxn_type ≠ 99) : new_drops h = false := by
  simp [new_drops, htt]

theorem payment_guard_not_invoke (h : Host) (htt : h.otxn_type ≠ 99) :
    payment_guard h = false := by
  simp [payment_guard, htt]

theorem hook_state_not_target (h : Host) (k : Bytes)
    (hk : payment_guard h = true → k ≠ target h) :
    (hook h).state k =
      if new_drops h = true ∧ 0 ≤ h.state_foreign_set_result value_key ∧ k = value_key
      then some (payment_amount h)
      else if new_seconds h = true ∧ 0 ≤ h.state_foreign_set_result seconds_key ∧ k = seconds_key
      then some (cooldown_seconds h) else h.state k := by
  rw [hook_state, config_run_state, seconds_run_state]
  by_cases hg : payment_guard h = true
  · simp [hk hg]
  · simp [hg]

/-! ## The configuration in effect -/

theorem poke_u64_bytes (g v : Nat) (hv : v < 2 ^ 64) : poke g (u64_bytes v) = v := by
  simp only [poke, u64_bytes, le_val, U64, List.length_cons, List.length_nil]
  norm_num
  omega

theorem otxn_param_u64_bytes (ps : Bytes → Option Bytes) (name : Bytes) (v : Nat)
    (hp : ps name = some (u64_bytes v)) :
    otxn_param ps 8 name = 8 ∧ otxn_param_bytes ps 8 name = u64_bytes v := by
  simp [otxn_param, otxn_param_bytes, hp, u64_bytes]

theorem payment_amount_override (h : Host) (v : Nat) (hinvoke : h.otxn_type = 99)
    (hv : v < 2 ^ 64) (hp : h.otxn_params value_key = some (u64_bytes v)) :
    new_drops h = true ∧ payment_amount h = v := by
  have hn : new_drops h = true := by
    simp [new_drops, hinvoke, (otxn_param_u64_bytes h.otxn_params value_key v hp).1]
  refine ⟨hn, ?_⟩
  simp only [payment_amount, hn, if_true,
    (otxn_param_u64_bytes h.otxn_params value_key v hp).2]
  exact poke_u64_bytes _ v hv

theorem loaded_seconds_eq (h : Host) :
    loaded_seconds h =
      match h.state seconds_key with
      | some s => s % 2 ^ 64
      | none => 86400 := by
  unfold loaded_seconds state_foreign
  cases h.state seconds_key <;> simp [DOESNT_EXIST, U64]

theorem loaded_drops_eq (h : Host) :
    loaded_drops h =
      match h.state value_key with
      | some d => d % 2 ^ 64
      | none => 1000000 := by
  unfold loaded_drops state_foreign
  cases h.state value_key <;> simp [DOESNT_EXIST, U64]

theorem cooldown_seconds_no_override (h : Host) (hp : h.otxn_params seconds_key = none) :
    cooldown_seconds h = loaded_seconds h := by
  simp [cooldown_seconds, new_seconds_absent h hp]

theorem payment_amount_no_override (h : Host) (hp : h.otxn_params value_key = none) :
    payment_amount h = loaded_drops h := by
  simp [payment_amount, new_drops_absent h hp]

theorem hook_state_seconds_key (h : Host) :
    (hook h).state seconds_key =
      if new_seconds h = true ∧ 0 ≤ h.state_foreign_set_result seconds_key
      then some (cooldown_seconds h) else h.state seconds_key := by
  rw [hook_state_not_target h seconds_key
    (fun hg => (ne_seconds_key _ (target_length h hg)).symm)]
  simp [seconds_key, value_key]

theorem hook_state_value_key (h : Host) :
    (hook h).state value_key =
      if new_drops h = true ∧ 0 ≤ h.state_foreign_set_result value_key
      then some (payment_amount h) else h.state value_key := by
  rw [hook_state_not_target h value_key
    (fun hg => (ne_value_key _ (target_length h hg)).symm)]
  simp [seconds_key, value_key]

theorem emits_contents (h : Host) (p : Payment) (hp : p ∈ (hook h).emits) :
    p = payment h ∧ payment_guard h = true := by
  rw [hook_emits] at hp
  by_cases hc : payment_guard h = true ∧ authorized h = true
  · simp only [hc, and_self, if_true, List.mem_singleton] at hp
    exact ⟨hp, hc.1⟩
  · simp [hc] at hp

theorem declined_iff (h : Host) (R : Bytes) (T : Nat)
    (hinvoke : h.otxn_type = 99) (hself : h.otxn_account = h.hook_accid)
    (haddr : h.otxn_params address_param = some R) (hlen : R.length = 20)
    (hrec : h.state R = some T) (hpos : 0 < T) (hT : T < 2 ^ 64) :
    (hook h).emits = [] ↔
      h.ledger_last_time % 2 ^ 64 < (T + cooldown_seconds h) % 2 ^ 64 := by
  have hg : payment_guard h = true :=
    (payment_guard_iff h).mpr ⟨hinvoke, hself.symm, R, haddr, hlen⟩
  have hl : last_ts h = T := by
    rw [last_ts_stored h R T haddr hlen hrec]
    exact Nat.mod_eq_of_lt (by unfold U64; omega)
  rw [hook_emits]
  by_cases hlt : h.ledger_last_time % 2 ^ 64 < (T + cooldown_seconds h) % 2 ^ 64
  · simp [hg, authorized, ts_check, hl, hpos, U64, hlt]
  · simp [hg, authorized, ts_check, hl, hpos, U64, hlt]

/-! ## C1: the cooldown invariant -/

/-- C1 (as amended).  Let the recipient `R` have the stored timestamp `T > 0`, let `C` be the
cooldown in effect with `T + C < 2 ^ 64`, and let `t` be the ledger time (a non-negative
`int64_t`).  A self-originated invoke with the 20-byte `ADDRESS` `R` then (a) when `t < T + C`
hands nothing to `emit` and leaves the stored timestamp of `R` at `T`, and (b) when
`T + C ≤ t` hands exactly one payment, of the amount in effect and to `R`, to `emit` and,
the host accepting the write, leaves the stored timestamp of `R` at `t`. -/
theorem cooldown_invariant (h : Host) (R : Bytes) (T C t : Nat)
    (hinvoke : h.otxn_type = 99) (hself : h.otxn_account = h.hook_accid)
    (haddr : h.otxn_params address_param = some R) (hlen : R.length = 20)
    (hrec : h.state R = some T) (hpos : 0 < T)
    (hC : cooldown_seconds h = C) (hsum : T + C < 2 ^ 64)
    (ht : h.ledger_last_time = t) (hrange : t < 2 ^ 63) :
    (t < T + C → (hook h).emits = [] ∧ (hook h).state R = some T) ∧
    (T + C ≤ t →
      (hook h).emits = [PREPARE_PAYMENT_SIMPLE (payment_amount h) R 0 0] ∧
      (0 ≤ h.state_foreign_set_result R → (hook h).state R = some t)) := by
  have hg : payment_guard h = true :=
    (payment_guard_iff h).mpr ⟨hinvoke, hself.symm, R, haddr, hlen⟩
  have htgt := target_eq h R haddr hlen
  have hl : last_ts h = T := by
    rw [last_ts_stored h R T haddr hlen hrec]
    exact Nat.mod_eq_of_lt (by unfold U64; omega)
  have hc : ts_check h = T + C := by
    unfold ts_check
    rw [hl, hC]
    exact Nat.mod_eq_of_lt (by unfold U64; omega)
  have hts : h.ledger_last_time % U64 = t := by
    rw [ht]
    exact Nat.mod_eq_of_lt (by unfold U64; omega)
  have hcfg := config_run_state_recipient h R (ne_value_key R hlen) (ne_seconds_key R hlen)
  constructor
  · intro hlt
    have ha : authorized h = false := by
      simp [authorized, hl, hc, hts, hpos, hlt]
    constructor
    · rw [hook_emits]; simp [ha]
    · rw [hook_state]; simp [ha, hcfg, hrec]
  · intro hle
    have ha : authorized h = true := by
      simp [authorized, hl, hc, hts, hpos, hle]
    constructor
    · rw [hook_emits]; simp [ha, hg, payment, htgt]
    · intro hset
      rw [hook_state]; simp [ha, hg, htgt, hset, hts]

/-- C1, evaluated: cooldown 10 and stored timestamp 100; the invoke at 105 is declined, the
invoke at 111 pays 500000 and moves the timestamp to 111. -/
theorem cooldown_invariant_witness :
    ((hook (claim_at 105 (paid_store 100))).emits = [] ∧
      (hook (claim_at 105 (paid_store 100))).state recipient = some 100) ∧
    ((hook (claim_at 111 (paid_store 100))).emits = [PREPARE_PAYMENT_SIMPLE 500000 recipient 0 0] ∧
      (hook (claim_at 111 (paid_store 100))).state recipient = some 111) :=
  ⟨(cooldown_invariant (claim_at 105 (paid_store 100)) recipient 100 10 105
      rfl rfl rfl rfl rfl (by decide) rfl (by decide) rfl (by decide)).1 (by decide),
   ((cooldown_invariant (claim_at 111 (paid_store 100)) recipient 100 10 111
      rfl rfl rfl rfl rfl (by decide) rfl (by decide) rfl (by decide)).2 (by decide)).imp
        id (fun hw => hw (by decide))⟩

/-- C1 as stated fails.  For the stored timestamp `T = 0`, cooldown 10 and ledger time 5 we
have `t < T + C`, yet the hook takes the first-payment branch, hands a payment to `emit` and
moves the stored timestamp to 5.  For `T = 100`, cooldown `2 ^ 64 - 50` and ledger time 105
we have `t < T + C` as well, yet the 64-bit sum of line 124 is 50 and the hook pays. -/
theorem cooldown_fails_at_sentinel_and_wrap :
    ((claim_at 5 (paid_store 0)).state recipient = some 0 ∧
      cooldown_seconds (claim_at 5 (paid_store 0)) = 10 ∧
      (claim_at 5 (paid_store 0)).ledger_last_time < 0 + 10 ∧
      (hook (claim_at 5 (paid_store 0))).emits = [PREPARE_PAYMENT_SIMPLE 500000 recipient 0 0] ∧
      (hook (claim_at 5 (paid_store 0))).state recipient = some 5) ∧
    ((claim_at 105 long_cooldown_store).state recipient = some 100 ∧
      cooldown_seconds (claim_at 105 long_cooldown_store) = 2 ^ 64 - 50 ∧
      (claim_at 105 long_cooldown_store).ledger_last_time < 100 + (2 ^ 64 - 50) ∧
      (hook (claim_at 105 long_cooldown_store)).emits
        = [PREPARE_PAYMENT_SIMPLE 500000 recipient 0 0] ∧
      (hook (claim_at 105 long_cooldown_store)).state recipient = some 105) := by
  decide

/-! ## C2: the first payment -/

/-- C2 (as amended).  Let the recipient `R` have no stored record, the absent record being
read as 0 (the local `last_ts` holds 0 when the failed read leaves it untouched), and let
`t > 0` be the ledger time (a non-negative `int64_t`).  A self-originated invoke with the
20-byte `ADDRESS` `R` hands exactly one payment, of the amount in effect and to `R`, to
`emit`, and, the host accepting the write, the stored timestamp of `R` is afterwards
non-zero and equal to `t`. -/
theorem first_payment (h : Host) (R : Bytes) (t : Nat)
    (hinvoke : h.otxn_type = 99) (hself : h.otxn_account = h.hook_accid)
    (haddr : h.otxn_params address_param = some R) (hlen : R.length = 20)
    (hrec : h.state R = none) (hzero : h.uninit.last_ts = 0)
    (ht : h.ledger_last_time = t) (hpos : 0 < t) (hrange : t < 2 ^ 63)
    (hset : 0 ≤ h.state_foreign_set_result R) :
    (hook h).emits = [PREPARE_PAYMENT_SIMPLE (payment_amount h) R 0 0] ∧
    ∃ v, (hook h).state R = some v ∧ v ≠ 0 ∧ v = t := by
  have hg : payment_guard h = true :=
    (payment_guard_iff h).mpr ⟨hinvoke, hself.symm, R, haddr, hlen⟩
  have htgt := target_eq h R haddr hlen
  have hl : last_ts h = 0 := by
    rw [last_ts_absent h R haddr hlen hrec, hzero]
    rfl
  have hts : h.ledger_last_time % U64 = t := by
    rw [ht]
    exact Nat.mod_eq_of_lt (by unfold U64; omega)
  have ha : authorized h = true := by
    simp [authorized, hl]
  constructor
  · rw [hook_emits]; simp [ha, hg, payment, htgt]
  · refine ⟨t, ?_, by omega, rfl⟩
    rw [hook_state]; simp [ha, hg, htgt, hset, hts]

/-- C2, evaluated: no record, ledger time 100; the hook pays 500000 and stores 100. -/
theorem first_payment_witness :
    (hook (claim_at 100 fresh_store)).emits = [PREPARE_PAYMENT_SIMPLE 500000 recipient 0 0] ∧
    ∃ v, (hook (claim_at 100 fresh_store)).state recipient = some v ∧ v ≠ 0 ∧ v = 100 :=
  first_payment (claim_at 100 fresh_store) recipient 100 rfl rfl rfl rfl rfl rfl rfl
    (by decide) (by decide) (by decide)

/-- C2 as stated fails at the ledger time `t = 0`: the recipient has no record, the hook
pays, and the timestamp it stores is 0, which is not non-zero. -/
theorem time_zero_stores_zero :
    (claim_at 0 fresh_store).state recipient = none ∧
    (claim_at 0 fresh_store).ledger_last_time = 0 ∧
    (hook (claim_at 0 fresh_store)).emits = [PREPARE_PAYMENT_SIMPLE 500000 recipient 0 0] ∧
    (hook (claim_at 0 fresh_store)).state recipient = some 0 := by
  decide

/-! ## C3: who may change the configuration -/

/-- C3, evaluated at the failing input: an invoke whose origin is not the hook account and
which carries `SECONDS = 1` and `XAH = 2 ^ 56` overwrites both stored configuration values
(10 and 500000 before). -/
theorem stranger_changes_config :
    stranger_override.otxn_account ≠ stranger_override.hook_accid ∧
    stranger_override.otxn_type = 99 ∧
    stranger_override.state seconds_key = some 10 ∧
    stranger_override.state value_key = some 500000 ∧
    (hook stranger_override).state seconds_key = some 1 ∧
    (hook stranger_override).state value_key = some 72057594037927936 ∧
    (hook stranger_override).writes =
      [(seconds_key, 1), (value_key, 72057594037927936)] := by
  decide

/-! ## C4: the payment guard -/

/-- C4.  Unless the event is an invoke (`tt == 99`) whose origin is the hook account and whose
`ADDRESS` parameter is present with exactly 20 bytes, the hook hands no payment to `emit`,
issues no write to a recipient record, and leaves every entry of the store other than the
two configuration entries as it was. -/
theorem payment_guard_required (h : Host)
    (hno : ¬ (h.otxn_type = 99 ∧ h.otxn_account = h.hook_accid ∧
      ∃ R, h.otxn_params address_param = some R ∧ R.length = 20)) :
    (hook h).emits = [] ∧ (hook h).recipient_writes = [] ∧
    ∀ k, k ≠ value_key → k ≠ seconds_key → (hook h).state k = h.state k := by
  have hg : ¬ payment_guard h = true := by
    rw [payment_guard_iff]
    rintro ⟨h1, h2, h3⟩
    exact hno ⟨h1, h2.symm, h3⟩
  refine ⟨?_, ?_, ?_⟩
  · rw [hook_emits]; simp [hg]
  · rw [hook_recipient_writes]; simp [hg]
  · intro k hv hs
    rw [hook_state_recipient h k hv hs]; simp [hg]

/-- C4, evaluated: an invoke for `recipient` from another account pays nothing and writes no
recipient record. -/
theorem payment_guard_required_witness :
    (hook (host_of stranger 99 100 [(address_param, recipient)] fresh_store)).emits = [] ∧
    (hook (host_of stranger 99 100 [(address_param, recipient)] fresh_store)).recipient_writes
      = [] ∧
    ∀ k, k ≠ value_key → k ≠ seconds_key →
      (hook (host_of stranger 99 100 [(address_param, recipient)] fresh_store)).state k
        = (host_of stranger 99 100 [(address_param, recipient)] fresh_store).state k :=
  payment_guard_required (host_of stranger 99 100 [(address_param, recipient)] fresh_store)
    (by decide)

/-! ## C5: an invoke without a usable recipient -/

/-- C5 (as amended).  For an event, an invoke in particular, whose `ADDRESS` parameter is
absent or not exactly 20 bytes long, whatever its origin and other parameters, the hook hands no payment to `emit`,
issues no write to a recipient record and leaves every recipient record as it was; the
stored `payment_amount` is unchanged when the event carries no `XAH` parameter and the
stored `cooldown_seconds` is unchanged when it carries no `SECONDS` parameter. -/
theorem no_recipient_frame (h : Host)
    (hbad : ∀ R, h.otxn_params address_param = some R → R.length ≠ 20) :
    (hook h).emits = [] ∧ (hook h).recipient_writes = [] ∧
    (∀ k, k ≠ value_key → k ≠ seconds_key → (hook h).state k = h.state k) ∧
    (h.otxn_params value_key = none → (hook h).state value_key = h.state value_key) ∧
    (h.otxn_params seconds_key = none → (hook h).state seconds_key = h.state seconds_key) := by
  have hg : ¬ payment_guard h = true := by
    rw [payment_guard_iff]
    rintro ⟨_, _, R, haddr, hlen⟩
    exact hbad R haddr hlen
  have hk : ∀ k, payment_guard h = true → k ≠ target h := fun k hgt => absurd hgt hg
  refine ⟨?_, ?_, ?_, ?_, ?_⟩
  · rw [hook_emits]; simp [hg]
  · rw [hook_recipient_writes]; simp [hg]
  · intro k hv hs
    rw [hook_state_recipient h k hv hs]; simp [hg]
  · intro hd
    rw [hook_state_not_target h value_key (hk value_key), new_drops_absent h hd]
    simp [value_key, seconds_key]
  · intro hs
    rw [hook_state_not_target h seconds_key (hk seconds_key), new_seconds_absent h hs]
    simp [value_key, seconds_key]

/-- C5, evaluated: a self-originated invoke with a 3-byte `ADDRESS` and no override changes
nothing. -/
theorem no_recipient_frame_witness :
    (hook (host_of owner 99 100 [(address_param, [7, 7, 7])] fresh_store)).emits = [] ∧
    (hook (host_of owner 99 100 [(address_param, [7, 7, 7])] fresh_store)).state value_key
      = some 500000 ∧
    (hook (host_of owner 99 100 [(address_param, [7, 7, 7])] fresh_store)).state seconds_key
      = some 10 :=
  have hw := no_recipient_frame (host_of owner 99 100 [(address_param, [7, 7, 7])] fresh_store)
    (by intro R hR; cases hR; decide)
  ⟨hw.1, (hw.2.2.2.1 rfl).trans rfl, (hw.2.2.2.2 rfl).trans rfl⟩

/-- C5 as stated fails: a self-originated invoke that carries `SECONDS = 60` and no `ADDRESS`
changes the stored `cooldown_seconds` from 10 to 60. -/
theorem no_recipient_still_writes_config :
    owner_override.otxn_type = 99 ∧
    owner_override.otxn_account = owner_override.hook_accid ∧
    owner_override.otxn_params address_param = none ∧
    owner_override.state seconds_key = some 10 ∧
    (hook owner_override).state seconds_key = some 60 := by
  decide

/-! ## C6: events that are not invokes -/

/-- C6.  For an event whose type is not invoke (`tt != 99`), whatever its origin and
parameters, the hook issues no durable write, hands no payment to `emit`, leaves the store
as it was and ends with `accept`. -/
theorem non_invoke_noop (h : Host) (htt : h.otxn_type ≠ 99) :
    (hook h).writes = [] ∧ (hook h).emits = [] ∧ (hook h).state = h.state ∧
    (hook h).outcome = Outcome.accept 0 := by
  have hg := payment_guard_not_invoke h htt
  have hs := new_seconds_not_invoke h htt
  have hd := new_drops_not_invoke h htt
  refine ⟨?_, ?_, ?_, ?_⟩
  · rw [hook_writes]; simp [hg, hs, hd]
  · rw [hook_emits]; simp [hg]
  · funext k
    rw [hook_state_not_target h k (by simp [hg])]; simp [hs, hd]
  · rw [hook_eq]

/-- C6, evaluated: a payment transaction from the owner that carries `ADDRESS`, `SECONDS`
and `XAH` leaves no trace but the reads. -/
theorem non_invoke_noop_witness :
    (hook not_an_invoke).writes = [] ∧ (hook not_an_invoke).emits = [] ∧
    (hook not_an_invoke).state = not_an_invoke.state ∧
    (hook not_an_invoke).outcome = Outcome.accept 0 :=
  non_invoke_noop not_an_invoke (by decide)

/-! ## C7: overrides persist -/

/-- C8.  When the store has no `XAH` entry and the event carries no `XAH` parameter, the
amount in effect is 1,000,000 and every payment handed to `emit` has that amount; when the
store has no `SECONDS` entry and the event carries no `SECONDS` parameter, the cooldown in
effect is 86,400 and the cooldown comparison of a self-originated invoke for a recipient
paid at `T > 0` declines exactly when the ledger time is below `T + 86400` (as 64-bit
values).  Each half looks only at its own key. -/
theorem default_configuration (h : Host) :
    (h.state value_key = none → h.otxn_params value_key = none →
      payment_amount h = 1000000 ∧ ∀ p ∈ (hook h).emits, p.drops = 1000000) ∧
    (h.state seconds_key = none → h.otxn_params seconds_key = none →
      cooldown_seconds h = 86400 ∧
      ∀ R T, h.otxn_type = 99 → h.otxn_account = h.hook_accid →
        h.otxn_params address_param = some R → R.length = 20 →
        h.state R = some T → 0 < T → T < 2 ^ 64 →
        ((hook h).emits = [] ↔ h.ledger_last_time % 2 ^ 64 < (T + 86400) % 2 ^ 64)) := by
  constructor
  · intro hst hno
    have hd : payment_amount h = 1000000 := by
      rw [payment_amount_no_override h hno, loaded_drops_eq, hst]
    refine ⟨hd, ?_⟩
    intro p hp
    rw [(emits_contents h p hp).1]
    exact hd
  · intro hst hno
    have hc : cooldown_seconds h = 86400 := by
      rw [cooldown_seconds_no_override h hno, loaded_seconds_eq, hst]
    refine ⟨hc, ?_⟩
    intro R T hinvoke hself haddr hlen hrec hpos hT
    rw [declined_iff h R T hinvoke hself haddr hlen hrec hpos hT, hc]

/-- C8, evaluated: on a store without configuration, an invoke at 90000 for a recipient paid
at 100 is authorized (100 + 86400 ≤ 90000) and pays 1,000,000. -/
theorem default_configuration_witness :
    (payment_amount unconfigured = 1000000 ∧
      ∀ p ∈ (hook unconfigured).emits, p.drops = 1000000) ∧
    cooldown_seconds unconfigured = 86400 ∧
    ((hook unconfigured).emits = [] ↔
      unconfigured.ledger_last_time % 2 ^ 64 < (100 + 86400) % 2 ^ 64) :=
  have hw := default_configuration unconfigured
  ⟨hw.1 rfl rfl, (hw.2 rfl rfl).1,
    (hw.2 rfl rfl).2 recipient 100 rfl rfl rfl rfl rfl (by decide) (by decide)⟩

/-! ## C9: paid, declined, paid again -/

theorem authorized_on_record (h : Host) (R : Bytes) (T : Nat)
    (haddr : h.otxn_params address_param = some R) (hlen : R.length = 20)
    (hrec : h.state R = some T) (hpos : 0 < T)
    (hsum : T + cooldown_seconds h < 2 ^ 64) (hrange : h.ledger_last_time < 2 ^ 64) :
    authorized h = decide (T + cooldown_seconds h ≤ h.ledger_last_time) := by
  have hl : last_ts h = T := by
    rw [last_ts_stored h R T haddr hlen hrec]
    exact Nat.mod_eq_of_lt (by unfold U64; omega)
  have hc : ts_check h = T + cooldown_seconds h := by
    unfold ts_check
    rw [hl]
    exact Nat.mod_eq_of_lt (by unfold U64; omega)
  have hts : h.ledger_last_time % U64 = h.ledger_last_time :=
    Nat.mod_eq_of_lt (by unfold U64; omega)
  by_cases hle : T + cooldown_seconds h ≤ h.ledger_last_time
  · simp [authorized, hl, hc, hts, hpos, hle]
  · simp [authorized, hl, hc, hts, hpos, hle, not_le.mp hle]

theorem authorized_on_absent (h : Host) (R : Bytes)
    (haddr : h.otxn_params address_param = some R) (hlen : R.length = 20)
    (hrec : h.state R = none) (hzero : h.uninit.last_ts = 0) : authorized h = true := by
  have hl : last_ts h = 0 := by
    rw [last_ts_absent h R haddr hlen hrec, hzero]
    rfl
  simp [authorized, hl]

theorem config_carried (h h2 : Host) (hst : h2.state = (hook h).state)
    (hs : h.otxn_params seconds_key = none) (hd : h.otxn_params value_key = none)
    (hs2 : h2.otxn_params seconds_key = none) (hd2 : h2.otxn_params value_key = none) :
    cooldown_seconds h2 = cooldown_seconds h ∧ payment_amount h2 = payment_amount h := by
  constructor
  · rw [cooldown_seconds_no_override h2 hs2, cooldown_seconds_no_override h hs,
      loaded_seconds_eq, loaded_seconds_eq, hst, hook_state_seconds_key]
    simp [new_seconds_absent h hs]
  · rw [payment_amount_no_override h2 hd2, payment_amount_no_override h hd,
      loaded_drops_eq, loaded_drops_eq, hst, hook_state_value_key]
    simp [new_drops_absent h hd]

/-- C9 (as amended).  Let `R` have no record, the absent record being read as 0 in the first
invoke (the local `last_ts` holds 0 when the failed read leaves it untouched), let `C` and
`A` be the cooldown and the amount in effect, and let `0 < t0`, `t1 < t0 + C ≤ t2` with
`t0 + C < 2 ^ 64` and `t2` a non-negative `int64_t` (so in particular for
`0 < t0 ≤ t1 < t0 + C ≤ t2`).  Of three successive self-originated invokes with `ADDRESS = R`
and no overrides, on a host that accepts the writes of the timestamp of `R`, the first at
`t0` hands one payment of `A` to `emit` and stores `t0` for `R`; the second at `t1` hands
nothing to `emit` and leaves `t0`; the third at `t2` hands one payment of `A` to `emit` and
stores `t2`. -/
theorem paid_then_cooldown (h0 h1 h2 : Host) (R : Bytes) (C A t0 t1 t2 : Nat)
    (hlen : R.length = 20)
    (c0 : plain_claim h0 R t0) (c1 : plain_claim h1 R t1) (c2 : plain_claim h2 R t2)
    (hs1 : h1.state = (hook h0).state) (hs2 : h2.state = (hook h1).state)
    (hrec : h0.state R = none) (hzero : h0.uninit.last_ts = 0)
    (hC : cooldown_seconds h0 = C) (hA : payment_amount h0 = A)
    (h0pos : 0 < t0) (h1C : t1 < t0 + C) (hC2 : t0 + C ≤ t2)
    (hsum : t0 + C < 2 ^ 64) (hrange : t2 < 2 ^ 63)
    (hw0 : 0 ≤ h0.state_foreign_set_result R) (hw2 : 0 ≤ h2.state_foreign_set_result R) :
    ((hook h0).emits = [PREPARE_PAYMENT_SIMPLE A R 0 0] ∧ (hook h0).state R = some t0) ∧
    ((hook h1).emits = [] ∧ (hook h1).state R = some t0) ∧
    ((hook h2).emits = [PREPARE_PAYMENT_SIMPLE A R 0 0] ∧ (hook h2).state R = some t2) := by
  obtain ⟨i0, s0, a0, ns0, nd0, e0⟩ := c0
  obtain ⟨i1, s1, a1, ns1, nd1, e1⟩ := c1
  obtain ⟨i2, s2, a2, ns2, nd2, e2⟩ := c2
  have hv := ne_value_key R hlen
  have hk := ne_seconds_key R hlen
  -- the first invoke
  have g0 : payment_guard h0 = true := (payment_guard_iff h0).mpr ⟨i0, s0.symm, R, a0, hlen⟩
  have tg0 := target_eq h0 R a0 hlen
  have au0 := authorized_on_absent h0 R a0 hlen hrec hzero
  have m0 : h0.ledger_last_time % U64 = t0 := by
    rw [e0]; exact Nat.mod_eq_of_lt (by unfold U64; omega)
  have st0 : (hook h0).state R = some t0 := by
    rw [hook_state]; simp [au0, g0, tg0, hw0, m0]
  -- the second invoke
  have g1 : payment_guard h1 = true := (payment_guard_iff h1).mpr ⟨i1, s1.symm, R, a1, hlen⟩
  have cf1 := config_carried h0 h1 hs1 ns0 nd0 ns1 nd1
  have r1 : h1.state R = some t0 := by rw [hs1]; exact st0
  have au1 : authorized h1 = false := by
    rw [authorized_on_record h1 R t0 a1 hlen r1 h0pos (by rw [cf1.1, hC]; exact hsum)
      (by rw [e1]; omega), cf1.1, hC, e1]
    simp only [decide_eq_false_iff_not, not_le]
    exact h1C
  have st1 : (hook h1).state R = some t0 := by
    rw [hook_state, config_run_state_recipient h1 R hv hk]; simp [au1, r1]
  -- the third invoke
  have g2 : payment_guard h2 = true := (payment_guard_iff h2).mpr ⟨i2, s2.symm, R, a2, hlen⟩
  have tg2 := target_eq h2 R a2 hlen
  have cf2 := config_carried h1 h2 hs2 ns1 nd1 ns2 nd2
  have r2 : h2.state R = some t0 := by rw [hs2]; exact st1
  have m2 : h2.ledger_last_time % U64 = t2 := by
    rw [e2]; exact Nat.mod_eq_of_lt (by unfold U64; omega)
  have au2 : authorized h2 = true := by
    rw [authorized_on_record h2 R t0 a2 hlen r2 h0pos (by rw [cf2.1, cf1.1, hC]; exact hsum)
      (by rw [e2]; omega), cf2.1, cf1.1, hC, e2]
    simp only [decide_eq_true_eq]
    exact hC2
  refine ⟨⟨?_, st0⟩, ⟨?_, st1⟩, ⟨?_, ?_⟩⟩
  · rw [hook_emits]; simp [au0, g0, payment, tg0, hA]
  · rw [hook_emits]; simp [au1]
  · rw [hook_emits]; simp [au2, g2, payment, tg2, cf2.2, cf1.2, hA]
  · rw [hook_state]; simp [au2, g2, tg2, hw2, m2]

/-- C9, evaluated on the scenario of the spec: cooldown 10, amount 500000, invokes at 100, 105
and 111 for a recipient without a record. -/
theorem paid_then_cooldown_witness :
    ((hook (claim_at 100 fresh_store)).emits = [PREPARE_PAYMENT_SIMPLE 500000 recipient 0 0] ∧
      (hook (claim_at 100 fresh_store)).state recipient = some 100) ∧
    ((hook (claim_at 105 (hook (claim_at 100 fresh_store)).state)).emits = [] ∧
      (hook (claim_at 105 (hook (claim_at 100 fresh_store)).state)).state recipient
        = some 100) ∧
    ((hook (claim_at 111 (hook (claim_at 105 (hook (claim_at 100 fresh_store)).state)).state)).emits
        = [PREPARE_PAYMENT_SIMPLE 500000 recipient 0 0] ∧
      (hook (claim_at 111 (hook (claim_at 105 (hook (claim_at 100 fresh_store)).state)).state)).state
        recipient = some 111) :=
  paid_then_cooldown (claim_at 100 fresh_store)
    (claim_at 105 (hook (claim_at 100 fresh_store)).state)
    (claim_at 111 (hook (claim_at 105 (hook (claim_at 100 fresh_store)).state)).state)
    recipient 10 500000 100 105 111 rfl
    ⟨rfl, rfl, rfl, rfl, rfl, rfl⟩ ⟨rfl, rfl, rfl, rfl, rfl, rfl⟩ ⟨rfl, rfl, rfl, rfl, rfl, rfl⟩
    rfl rfl rfl rfl rfl rfl (by decide) (by decide) (by decide) (by decide) (by decide)
    (by decide) (by decide)

/-- C9 as stated fails, on the scenario of the spec (no record, cooldown 10, amount 500000,
invokes at 100 and 105).  When the host rejects the write of the first invoke, whose return
code the hook does not look at, no timestamp is stored and the second invoke at 105 pays
again.  When the never-initialised local `last_ts` holds 1000 at the failed read of the
absent record, the first invoke takes the cooldown branch, hands nothing to `emit` and
stores nothing. -/
theorem scenario_needs_accepted_write_and_zero_local :
    (plain_claim write_rejected recipient 100 ∧
      write_rejected.state recipient = none ∧
      cooldown_seconds write_rejected = 10 ∧
      (hook write_rejected).emits = [PREPARE_PAYMENT_SIMPLE 500000 recipient 0 0] ∧
      (hook write_rejected).state recipient = none ∧
      plain_claim after_write_rejected recipient 105 ∧
      after_write_rejected.state = (hook write_rejected).state ∧
      (hook after_write_rejected).emits = [PREPARE_PAYMENT_SIMPLE 500000 recipient 0 0]) ∧
    (plain_claim dirty_last_ts recipient 100 ∧
      dirty_last_ts.state recipient = none ∧
      cooldown_seconds dirty_last_ts = 10 ∧
      dirty_last_ts.uninit.last_ts = 1000 ∧
      (hook dirty_last_ts).emits = [] ∧
      (hook dirty_last_ts).state recipient = none) := by
  refine ⟨⟨⟨rfl, rfl, rfl, rfl, rfl, rfl⟩, rfl, ?_, ?_, ?_, ⟨rfl, rfl, rfl, rfl, rfl, rfl⟩,
    rfl, ?_⟩, ⟨rfl, rfl, rfl, rfl, rfl, rfl⟩, rfl, ?_, rfl, ?_, ?_⟩ <;> decide

/-! ## C10: what a payment contains -/

/-- C10.  Every payment the hook hands to `emit`, on either authorized branch, has as its
destination the 20-byte `ADDRESS` parameter of the event and as its amount the amount in
effect: the 8-byte `XAH` parameter of the same invocation when there is one, else the stored
value, else the default 1,000,000.  Both tags are 0. -/
theorem payment_contents (h : Host) (p : Payment) (hp : p ∈ (hook h).emits) :
    (∃ R, h.otxn_params address_param = some R ∧ R.length = 20 ∧ p.dest = R) ∧
    p.drops = payment_amount h ∧
    (∀ v, v < 2 ^ 64 → h.otxn_params value_key = some (u64_bytes v) → p.drops = v) ∧
    (∀ d, h.otxn_params value_key = none → h.state value_key = some d →
      p.drops = d % 2 ^ 64) ∧
    (h.otxn_params value_key = none → h.state value_key = none → p.drops = 1000000) ∧
    p.dest_tag = 0 ∧ p.src_tag = 0 := by
  obtain ⟨hpay, hg⟩ := emits_contents h p hp
  obtain ⟨hinvoke, _, R, haddr, hlen⟩ := (payment_guard_iff h).mp hg
  have hd : p.drops = payment_amount h := by rw [hpay]; rfl
  refine ⟨⟨R, haddr, hlen, ?_⟩, hd, ?_, ?_, ?_, ?_, ?_⟩
  · rw [hpay]
    exact target_eq h R haddr hlen
  · intro v hv hx
    rw [hd, (payment_amount_override h v hinvoke hv hx).2]
  · intro d hno hst
    rw [hd, payment_amount_no_override h hno, loaded_drops_eq, hst]
  · intro hno hst
    rw [hd, payment_amount_no_override h hno, loaded_drops_eq, hst]
  · rw [hpay]; rfl
  · rw [hpay]; rfl

/-- C10, evaluated: the payment of the invoke at 111 for a recipient paid at 100 (cooldown
10, stored amount 500000) goes to that recipient and carries the stored amount. -/
theorem payment_contents_witness :
    PREPARE_PAYMENT_SIMPLE 500000 recipient 0 0 ∈ (hook (claim_at 111 (paid_store 100))).emits ∧
    (∃ R, (claim_at 111 (paid_store 100)).otxn_params address_param = some R ∧ R.length = 20 ∧
      (PREPARE_PAYMENT_SIMPLE 500000 recipient 0 0).dest = R) ∧
    (PREPARE_PAYMENT_SIMPLE 500000 recipient 0 0).drops
      = payment_amount (claim_at 111 (paid_store 100)) :=
  have hw := payment_contents (claim_at 111 (paid_store 100))
    (PREPARE_PAYMENT_SIMPLE 500000 recipient 0 0) (by decide)
  ⟨by decide, hw.1, hw.2.1⟩

/-! ## C11: one payment, one record -/

/-- C11.  In every invocation (the ledger time being a non-negative `int64_t`) either the hook
hands no payment to `emit` and issues no write to a recipient record, or it hands exactly one
payment to `emit` and issues exactly one write to a recipient record, under the destination
of that payment and with the ledger time as value; the host accepting that write, the store
then holds the ledger time for the destination.  So no payment goes to `emit` without the
timestamp write, and an invocation that pays nothing writes no recipient record. -/
theorem emission_record_consistency (h : Host) (hrange : h.ledger_last_time < 2 ^ 63) :
    ((hook h).emits = [] ∧ (hook h).recipient_writes = []) ∨
    ∃ p, (hook h).emits = [p] ∧
      (hook h).recipient_writes = [(p.dest, h.ledger_last_time)] ∧
      (0 ≤ h.state_foreign_set_result p.dest →
        (hook h).state p.dest = some h.ledger_last_time) := by
  have hts : h.ledger_last_time % U64 = h.ledger_last_time :=
    Nat.mod_eq_of_lt (by unfold U64; omega)
  by_cases hc : payment_guard h = true ∧ authorized h = true
  · right
    refine ⟨payment h, ?_, ?_, ?_⟩
    · rw [hook_emits]; simp [hc]
    · rw [hook_recipient_writes]; simp [hc, hts, payment, PREPARE_PAYMENT_SIMPLE]
    · intro hset
      have hset2 : 0 ≤ h.state_foreign_set_result (target h) := hset
      rw [hook_state]
      simp [hc, hts, hset2, payment, PREPARE_PAYMENT_SIMPLE]
  · left
    constructor
    · rw [hook_emits]; simp [hc]
    · rw [hook_recipient_writes]; simp [hc]

/-- C11, evaluated: the invoke at 111 for a recipient paid at 100 (cooldown 10). -/
theorem emission_record_consistency_witness :
    ((hook (claim_at 111 (paid_store 100))).emits = [] ∧
      (hook (claim_at 111 (paid_store 100))).recipient_writes = []) ∨
    ∃ p, (hook (claim_at 111 (paid_store 100))).emits = [p] ∧
      (hook (claim_at 111 (paid_store 100))).recipient_writes
        = [(p.dest, (claim_at 111 (paid_store 100)).ledger_last_time)] ∧
      (0 ≤ (claim_at 111 (paid_store 100)).state_foreign_set_result p.dest →
        (hook (claim_at 111 (paid_store 100))).state p.dest
          = some (claim_at 111 (paid_store 100)).ledger_last_time) :=
  emission_record_consistency (claim_at 111 (paid_store 100)) (by decide)

/-! ## C12: a failed emission -/

/-- C12, evaluated at the failing input: `emit` returns a negative code in the first invoke
for a recipient; the hook still ends with `accept` and the timestamp of the recipient is
recorded for the payment that failed. -/
theorem failed_emission_is_accepted :
    emit_fails.emit_result < 0 ∧
    emit_fails.state recipient = none ∧
    (hook emit_fails).outcome = Outcome.accept 0 ∧
    (hook emit_fails).state recipient = some 100 ∧
    (hook emit_fails).effects =
      [Effect.etxn_reserve 1, Effect.state_foreign value_key, Effect.state_foreign seconds_key,
        Effect.state_foreign recipient, Effect.state_foreign_set recipient 100,
        Effect.emit (PREPARE_PAYMENT_SIMPLE 500000 recipient 0 0) (-11),
        Effect.trace TraceMsg.first_time] := by
  decide

/-! ## C13: a failed write -/

theorem last_ts_of_guard (h : Host) (hg : payment_guard h = true) :
    last_ts h = (state_foreign h.state (target h) (h.uninit.last_ts % U64)).2 := by
  have hl := target_length h hg
  unfold last_ts state_foreign
  rw [config_run_state_recipient h (target h) (ne_value_key _ hl) (ne_seconds_key _ hl)]

theorem gate_effects_eq (h h2 : Host) (hg : payment_guard h2 = payment_guard h)
    (ht : target h2 = target h) (hst : h2.state = h.state) (hu : h2.uninit = h.uninit)
    (hc : cooldown_seconds h2 = cooldown_seconds h) (hp : payment_amount h2 = payment_amount h)
    (hl : h2.ledger_last_time = h.ledger_last_time) (he : h2.emit_result = h.emit_result) :
    gate_effects h2 = gate_effects h := by
  by_cases hgt : payment_guard h = true
  · have hgt2 : payment_guard h2 = true := by rw [hg]; exact hgt
    have hls : last_ts h2 = last_ts h := by
      rw [last_ts_of_guard h hgt, last_ts_of_guard h2 hgt2, ht, hst, hu]
    unfold gate_effects ts_check payment
    rw [hg, ht, hls, hc, hp, hl, he]
  · have hgt2 : ¬ payment_guard h2 = true := by rw [hg]; exact hgt
    simp [gate_effects, hgt, hgt2]

/-- C13 (as amended).  A failed durable write is not fatal.  Whatever return codes the host
gives to `state_foreign_set`, the hook ignores them: it makes the same host calls in the same
order as with any other return codes and ends with `accept`; an entry whose write the host
rejected keeps the value it had. -/
theorem write_failure_ignored (h : Host) (f : Bytes → Int) :
    (hook { h with state_foreign_set_result := f }).effects = (hook h).effects ∧
    (hook { h with state_foreign_set_result := f }).outcome = Outcome.accept 0 ∧
    ∀ k, f k < 0 → (hook { h with state_foreign_set_result := f }).state k = h.state k := by
  refine ⟨?_, hook_outcome _, ?_⟩
  · rw [hook_effects, hook_effects,
      gate_effects_eq h { h with state_foreign_set_result := f } rfl rfl rfl rfl rfl rfl rfl rfl]
    rfl
  · intro k hk
    rw [hook_state, config_run_state, seconds_run_state]
    have h1 : ¬ (payment_guard { h with state_foreign_set_result := f } = true ∧
        authorized { h with state_foreign_set_result := f } = true ∧
        0 ≤ f (target { h with state_foreign_set_result := f }) ∧
        k = target { h with state_foreign_set_result := f }) := by
      rintro ⟨_, _, hr, hkt⟩
      rw [← hkt] at hr
      omega
    have h2 : ¬ (new_drops { h with state_foreign_set_result := f } = true ∧
        0 ≤ f value_key ∧ k = value_key) := by
      rintro ⟨_, hr, hkt⟩
      rw [← hkt] at hr
      omega
    have h3 : ¬ (new_seconds { h with state_foreign_set_result := f } = true ∧
        0 ≤ f seconds_key ∧ k = seconds_key) := by
      rintro ⟨_, hr, hkt⟩
      rw [← hkt] at hr
      omega
    rw [if_neg h1, if_neg h2, if_neg h3]

/-- C13, evaluated: with every write rejected, the first invoke for `recipient` makes the
same calls as with every write accepted, ends with `accept` and leaves no record. -/
theorem write_failure_ignored_witness :
    (hook write_rejected).effects = (hook (claim_at 100 fresh_store)).effects ∧
    (hook write_rejected).outcome = Outcome.accept 0 ∧
    (hook write_rejected).state recipient = none :=
  have hw := write_failure_ignored (claim_at 100 fresh_store) (fun _ => -9)
  ⟨hw.1, hw.2.1, hw.2.2 recipient (by decide)⟩

/-- C13 as stated fails: the host rejects the write of the recipient timestamp; the hook
carries on, hands the payment to `emit` and ends with `accept`, and no timestamp is stored. -/
theorem rejected_write_is_accepted :
    write_rejected.state_foreign_set_result recipient < 0 ∧
    (hook write_rejected).writes = [(recipient, 100)] ∧
    (hook write_rejected).emits = [PREPARE_PAYMENT_SIMPLE 500000 recipient 0 0] ∧
    (hook write_rejected).outcome = Outcome.accept 0 ∧
    (hook write_rejected).state recipient = none := by
  decide

/-! ## C14: a malformed recipient -/

theorem otxn_param_drop_address (ps : Bytes → Option Bytes) (cap : Nat) (name : Bytes)
    (hn : name ≠ address_param) :
    otxn_param (drop_param ps address_param) cap name = otxn_param ps cap name ∧
    otxn_param_bytes (drop_param ps address_param) cap name = otxn_param_bytes ps cap name := by
  simp [otxn_param, otxn_param_bytes, drop_param, hn]

theorem config_effects_drop_address (h : Host) :
    config_effects { h with otxn_params := drop_param h.otxn_params address_param }
      = config_effects h := by
  have hs := otxn_param_drop_address h.otxn_params 8 seconds_key (by decide)
  have hv := otxn_param_drop_address h.otxn_params 8 value_key (by decide)
  simp only [config_effects, new_seconds, new_drops, cooldown_seconds, payment_amount,
    loaded_seconds, loaded_drops, hs.1, hs.2, hv.1, hv.2]

theorem payment_guard_malformed (h : Host)
    (hbad : ∀ R, h.otxn_params address_param = some R → R.length ≠ 20) :
    payment_guard h = false := by
  cases hg : payment_guard h with
  | false => rfl
  | true =>
    obtain ⟨_, _, R, haddr, hlen⟩ := (payment_guard_iff h).mp hg
    exact absurd hlen (hbad R haddr)

/-- C14.  When the `ADDRESS` parameter is present with a length other than 20 bytes, shorter
or longer, the hook makes exactly the host calls, in the same order, that it makes for the
same event with the `ADDRESS` parameter removed: the same durable writes, no emission, the
same store afterwards, and `accept` as the outcome of both. -/
theorem malformed_address_as_absent (h : Host) (bs : Bytes)
    (haddr : h.otxn_params address_param = some bs) (hlen : bs.length ≠ 20) :
    (hook h).effects
      = (hook { h with otxn_params := drop_param h.otxn_params address_param }).effects ∧
    (hook h).writes
      = (hook { h with otxn_params := drop_param h.otxn_params address_param }).writes ∧
    (hook h).emits = [] ∧
    (hook { h with otxn_params := drop_param h.otxn_params address_param }).emits = [] ∧
    (hook h).state
      = (hook { h with otxn_params := drop_param h.otxn_params address_param }).state ∧
    (hook h).outcome = Outcome.accept 0 ∧
    (hook { h with otxn_params := drop_param h.otxn_params address_param }).outcome
      = Outcome.accept 0 := by
  have hg : payment_guard h = false :=
    payment_guard_malformed h (fun R hR => by rw [haddr] at hR; cases hR; exact hlen)
  have hg2 : payment_guard { h with otxn_params := drop_param h.otxn_params address_param }
      = false :=
    payment_guard_malformed _ (fun R hR => by simp [drop_param] at hR)
  have heff : (hook h).effects
      = (hook { h with otxn_params := drop_param h.otxn_params address_param }).effects := by
    rw [hook_effects, hook_effects, config_effects_drop_address]
    simp [gate_effects, hg, hg2]
  have hs := otxn_param_drop_address h.otxn_params 8 seconds_key (by decide)
  have hv := otxn_param_drop_address h.otxn_params 8 value_key (by decide)
  refine ⟨heff, ?_, ?_, ?_, ?_, hook_outcome _, hook_outcome _⟩
  · unfold Result.writes
    rw [heff]
  · rw [hook_emits]; simp [hg]
  · rw [hook_emits]; simp [hg2]
  · funext k
    rw [hook_state_not_target h k (by simp [hg]),
      hook_state_not_target _ k (by simp [hg2])]
    simp only [new_seconds, new_drops, cooldown_seconds, payment_amount,
      loaded_seconds, loaded_drops, hs.1, hs.2, hv.1, hv.2]

/-- C14, evaluated: a 3-byte `ADDRESS` next to `SECONDS = 60`; the override is written, as it
is without the `ADDRESS`, nothing is paid and the hook accepts. -/
theorem malformed_address_as_absent_witness :
    (hook short_address).writes = [(seconds_key, 60)] ∧
    (hook short_address).writes
      = (hook { short_address with
          otxn_params := drop_param short_address.otxn_params address_param }).writes ∧
    (hook short_address).emits = [] ∧
    (hook short_address).outcome = Outcome.accept 0 :=
  have hw := malformed_address_as_absent short_address [7, 7, 7] rfl (by decide)
  ⟨by decide, hw.2.1, hw.2.2.1, hw.2.2.2.2.2.1⟩

/-! ## C15: the number of state accesses -/

/-- C15 (as amended).  Every invocation issues 2 or 3 durable reads (`state_foreign`) and at
most 3 durable writes (`state_foreign_set`). -/
theorem state_access_bounds (h : Host) :
    2 ≤ (hook h).reads.length ∧ (hook h).reads.length ≤ 3 ∧ (hook h).writes.length ≤ 3 := by
  rw [hook_reads, hook_writes]
  by_cases hs : new_seconds h = true <;> by_cases hd : new_drops h = true <;>
    by_cases hg : payment_guard h = true <;> by_cases ha : authorized h = true <;>
    simp [hs, hd, hg, ha]

/-- C15 as stated fails: a self-originated invoke that carries `SECONDS`, `XAH` and the
`ADDRESS` of a recipient whose cooldown has elapsed issues three durable writes. -/
theorem three_writes_in_one_invocation :
    (hook owner_sets_both_and_pays).writes
      = [(seconds_key, 60), (value_key, 7), (recipient, 200)] ∧
    (hook owner_sets_both_and_pays).writes.length = 3 ∧
    (hook owner_sets_both_and_pays).reads = [value_key, seconds_key, recipient] := by
  decide

/-! ## C16: the order of write and emission -/

theorem config_effects_quiet (h : Host) :
    emitted ([Effect.etxn_reserve 1, Effect.state_foreign value_key,
        Effect.state_foreign seconds_key] ++ config_effects h ++
        [Effect.state_foreign (target h)]) = [] ∧
    ∀ w ∈ written ([Effect.etxn_reserve 1, Effect.state_foreign value_key,
        Effect.state_foreign seconds_key] ++ config_effects h ++
        [Effect.state_foreign (target h)]), w.1 = value_key ∨ w.1 = seconds_key := by
  unfold config_effects emitted written
  by_cases hs : new_seconds h = true <;> by_cases hd : new_drops h = true <;>
    simp [hs, hd]

/-- C16.  In a self-originated invoke with the 20-byte `ADDRESS` `R`, the trace of host calls
ends, on the first-payment path (`last_ts == 0`), with the write of the timestamp of `R`
followed by the emission, and on the cooldown-elapsed path (`last_ts > 0` and
`ts_check <= ts`), with the emission followed by the write of the timestamp of `R`.  What
comes before holds no emission and no write to a recipient record. -/
theorem authorized_paths_order (h : Host) (R : Bytes)
    (hinvoke : h.otxn_type = 99) (hself : h.otxn_account = h.hook_accid)
    (haddr : h.otxn_params address_param = some R) (hlen : R.length = 20) :
    (last_ts h = 0 →
      ∃ pre, (hook h).effects = pre ++
          [Effect.state_foreign_set R (h.ledger_last_time % 2 ^ 64),
            Effect.emit (PREPARE_PAYMENT_SIMPLE (payment_amount h) R 0 0) h.emit_result,
            Effect.trace TraceMsg.first_time] ∧
        emitted pre = [] ∧ ∀ w ∈ written pre, w.1 = value_key ∨ w.1 = seconds_key) ∧
    (0 < last_ts h → ts_check h ≤ h.ledger_last_time % 2 ^ 64 →
      ∃ pre, (hook h).effects = pre ++
          [Effect.emit (PREPARE_PAYMENT_SIMPLE (payment_amount h) R 0 0) h.emit_result,
            Effect.state_foreign_set R (h.ledger_last_time % 2 ^ 64),
            Effect.trace TraceMsg.executed] ∧
        emitted pre = [] ∧ ∀ w ∈ written pre, w.1 = value_key ∨ w.1 = seconds_key) := by
  have hg : payment_guard h = true :=
    (payment_guard_iff h).mpr ⟨hinvoke, hself.symm, R, haddr, hlen⟩
  have htgt := target_eq h R haddr hlen
  have hq := config_effects_quiet h
  constructor
  · intro hl
    refine ⟨[Effect.etxn_reserve 1, Effect.state_foreign value_key,
      Effect.state_foreign seconds_key] ++ config_effects h ++
      [Effect.state_foreign (target h)], ?_, hq.1, hq.2⟩
    rw [hook_effects]
    simp [gate_effects, hg, hl, htgt, payment, U64]
  · intro hl hle
    refine ⟨[Effect.etxn_reserve 1, Effect.state_foreign value_key,
      Effect.state_foreign seconds_key] ++ config_effects h ++
      [Effect.state_foreign (target h)], ?_, hq.1, hq.2⟩
    have hU : (2 : Nat) ^ 64 = U64 := rfl
    rw [hU] at hle ⊢
    rw [hook_effects]
    simp [gate_effects, hg, hl, not_lt.mpr hle, htgt, payment]

/-- C16, evaluated: the first invoke for `recipient` writes and then emits; the invoke at
111 after a payment at 100 (cooldown 10) emits and then writes. -/
theorem authorized_paths_order_witness :
    (∃ pre, (hook (claim_at 100 fresh_store)).effects = pre ++
        [Effect.state_foreign_set recipient (100 % 2 ^ 64),
          Effect.emit (PREPARE_PAYMENT_SIMPLE
            (payment_amount (claim_at 100 fresh_store)) recipient 0 0) 32,
          Effect.trace TraceMsg.first_time] ∧
      emitted pre = [] ∧ ∀ w ∈ written pre, w.1 = value_key ∨ w.1 = seconds_key) ∧
    (∃ pre, (hook (claim_at 111 (paid_store 100))).effects = pre ++
        [Effect.emit (PREPARE_PAYMENT_SIMPLE
            (payment_amount (claim_at 111 (paid_store 100))) recipient 0 0) 32,
          Effect.state_foreign_set recipient (111 % 2 ^ 64),
          Effect.trace TraceMsg.executed] ∧
      emitted pre = [] ∧ ∀ w ∈ written pre, w.1 = value_key ∨ w.1 = seconds_key) :=
  ⟨(authorized_paths_order (claim_at 100 fresh_store) recipient rfl rfl rfl rfl).1 (by decide),
   (authorized_paths_order (claim_at 111 (paid_store 100)) recipient rfl rfl rfl rfl).2
      (by decide) (by decide)⟩

/-! ## C17: the return code of `emit` -/

/-- C17.  Two runs of the hook that differ only in the return code of `emit` issue the same
durable writes in the same order, hand the same payments to `emit`, leave the same store and
both end with `accept`; in particular on an authorized path the timestamp of the recipient is
written whatever `emit` returned. -/
theorem emit_result_ignored (h : Host) (c : Int) :
    (hook { h with emit_result := c }).writes = (hook h).writes ∧
    (hook { h with emit_result := c }).emits = (hook h).emits ∧
    (hook { h with emit_result := c }).state = (hook h).state ∧
    (hook { h with emit_result := c }).outcome = (hook h).outcome ∧
    (hook h).outcome = Outcome.accept 0 ∧
    ((hook h).emits ≠ [] →
      (target h, h.ledger_last_time % 2 ^ 64) ∈ (hook { h with emit_result := c }).writes) := by
  have hw : (hook { h with emit_result := c }).writes = (hook h).writes := by
    rw [hook_writes, hook_writes]
    rfl
  refine ⟨hw, ?_, ?_, ?_, hook_outcome h, ?_⟩
  · rw [hook_emits, hook_emits]
    rfl
  · funext k
    rw [hook_state, hook_state]
    rfl
  · rw [hook_outcome, hook_outcome]
  · intro hne
    have hc : payment_guard h = true ∧ authorized h = true := by
      by_contra hn
      apply hne
      rw [hook_emits]; simp [hn]
    rw [hw, hook_writes]
    simp [hc, U64]

/-- C17, evaluated: the first invoke for `recipient` with a failing `emit` writes the
timestamp 100 all the same. -/
theorem emit_result_ignored_witness :
    (recipient, 100 % 2 ^ 64) ∈ (hook emit_fails).writes :=
  (emit_result_ignored (claim_at 100 fresh_store) (-11)).2.2.2.2.2 (by decide)

/-! ## C18: the decision rule with wraparound -/

/-- C18.  Let the recipient `R` have the stored timestamp `T > 0`, let `C` be the cooldown in
effect and `t` the ledger time, all 64-bit values.  A self-originated invoke with the 20-byte
`ADDRESS` `R` hands the payment to `emit` exactly when `(T + C) mod 2 ^ 64 ≤ t`, and hands
nothing to `emit` exactly when `t < (T + C) mod 2 ^ 64`: the eligibility time is the wrapped
sum. -/
theorem wrapped_decision_rule (h : Host) (R : Bytes) (T C t : Nat)
    (hinvoke : h.otxn_type = 99) (hself : h.otxn_account = h.hook_accid)
    (haddr : h.otxn_params address_param = some R) (hlen : R.length = 20)
    (hrec : h.state R = some T) (hpos : 0 < T) (hT : T < 2 ^ 64)
    (hC : cooldown_seconds h = C) (ht : h.ledger_last_time = t) (hrange : t < 2 ^ 64) :
    ((hook h).emits = [PREPARE_PAYMENT_SIMPLE (payment_amount h) R 0 0] ↔
      (T + C) % 2 ^ 64 ≤ t) ∧
    ((hook h).emits = [] ↔ t < (T + C) % 2 ^ 64) := by
  have hg : payment_guard h = true :=
    (payment_guard_iff h).mpr ⟨hinvoke, hself.symm, R, haddr, hlen⟩
  have htgt := target_eq h R haddr hlen
  have hl : last_ts h = T := by
    rw [last_ts_stored h R T haddr hlen hrec]
    exact Nat.mod_eq_of_lt (by unfold U64; omega)
  have hc : ts_check h = (T + C) % 2 ^ 64 := by
    unfold ts_check
    rw [hl, hC]
    rfl
  have hts : h.ledger_last_time % U64 = t := by
    rw [ht]
    exact Nat.mod_eq_of_lt (by unfold U64; omega)
  rw [hook_emits]
  generalize (T + C) % 2 ^ 64 = m at hc ⊢
  by_cases hle : m ≤ t
  · have ha : authorized h = true := by
      simp [authorized, hl, hc, hts, hpos, hle]
    simp [hg, ha, hle, payment, htgt]
  · have ha : authorized h = false := by
      simp [authorized, hl, hc, hts, hpos, not_le.mp hle]
    simp [hg, ha, hle, not_le.mp hle]

/-- C18, evaluated where the sum wraps: timestamp 100, cooldown `2 ^ 64 - 50`, ledger time
105.  The wrapped sum is 50, so the hook pays, although `105 < 100 + (2 ^ 64 - 50)`. -/
theorem wrapped_decision_rule_witness :
    (hook (claim_at 105 long_cooldown_store)).emits
      = [PREPARE_PAYMENT_SIMPLE (payment_amount (claim_at 105 long_cooldown_store))
          recipient 0 0] ∧
    105 < 100 + (2 ^ 64 - 50) :=
  ⟨(wrapped_decision_rule (claim_at 105 long_cooldown_store) recipient 100 (2 ^ 64 - 50) 105
      rfl rfl rfl rfl rfl (by decide) (by decide) (by decide) rfl (by decide)).1.mpr
        (by decide),
    by decide⟩

/-! ## C19: eligibility is monotone in the ledger time -/

/-- C19.  Let the recipient `R` have the stored timestamp `T > 0` and let the cooldown `C` in
effect satisfy `T + C < 2 ^ 64`.  If the hook hands a payment to `emit` at the ledger time of
`h`, then on the same store and event it hands the same payment to `emit` at every later
ledger time `t2` (a non-negative `int64_t`). -/
theorem eligibility_monotone (h : Host) (R : Bytes) (T t2 : Nat)
    (haddr : h.otxn_params address_param = some R) (hlen : R.length = 20)
    (hrec : h.state R = some T) (hpos : 0 < T)
    (hsum : T + cooldown_seconds h < 2 ^ 64)
    (hpaid : (hook h).emits ≠ [])
    (hlater : h.ledger_last_time ≤ t2) (hrange : t2 < 2 ^ 63) :
    (hook { h with ledger_last_time := t2 }).emits
      = [PREPARE_PAYMENT_SIMPLE (payment_amount h) R 0 0] := by
  have hc : payment_guard h = true ∧ authorized h = true := by
    by_contra hn
    apply hpaid
    rw [hook_emits]; simp [hn]
  have hl : last_ts h = T := by
    rw [last_ts_stored h R T haddr hlen hrec]
    exact Nat.mod_eq_of_lt (by unfold U64; omega)
  have hck : ts_check h = T + cooldown_seconds h := by
    unfold ts_check
    rw [hl]
    exact Nat.mod_eq_of_lt (by unfold U64; omega)
  have hmod : h.ledger_last_time % U64 ≤ h.ledger_last_time := Nat.mod_le _ _
  have hle : T + cooldown_seconds h ≤ h.ledger_last_time % U64 := by
    have ha := hc.2
    simp only [authorized, hl, hck, hpos, decide_True, Bool.not_true, Bool.false_or,
      Bool.not_eq_true', decide_eq_false_iff_not, not_lt] at ha
    exact ha
  have hg2 : payment_guard { h with ledger_last_time := t2 } = true := hc.1
  have htgt : target { h with ledger_last_time := t2 } = R := target_eq _ R haddr hlen
  have ha2 : authorized { h with ledger_last_time := t2 } = true := by
    rw [authorized_on_record { h with ledger_last_time := t2 } R T haddr hlen hrec hpos
      hsum (by show t2 < 2 ^ 64; omega)]
    simp only [decide_eq_true_eq]
    show T + cooldown_seconds h ≤ t2
    omega
  rw [hook_emits]
  simp only [hg2, ha2, and_self, if_true, payment, htgt]
  rfl

/-- C19, evaluated: paid at 100 with cooldown 10, the recipient is eligible at 111 and so at
5000. -/
theorem eligibility_monotone_witness :
    (hook { claim_at 111 (paid_store 100) with ledger_last_time := 5000 }).emits
      = [PREPARE_PAYMENT_SIMPLE (payment_amount (claim_at 111 (paid_store 100))) recipient 0 0] :=
  eligibility_monotone (claim_at 111 (paid_store 100)) recipient 100 5000 rfl rfl rfl
    (by decide) (by decide) (by decide) (by decide) (by decide)

/-! ## C20: the frame of a payment -/

/-- C20.  With the store keyed by exact byte strings, an invocation that carries neither an
`XAH` nor a `SECONDS` parameter leaves the stored `payment_amount` and `cooldown_seconds` as
they were, and an entry that does change is the one under the 20-byte `ADDRESS` of the event,
which then holds the ledger time; every other entry, the record of every other recipient, is
unchanged. -/
theorem payment_frame (h : Host)
    (hs : h.otxn_params seconds_key = none) (hd : h.otxn_params value_key = none) :
    (hook h).state value_key = h.state value_key ∧
    (hook h).state seconds_key = h.state seconds_key ∧
    (∀ k, h.otxn_params address_param ≠ some k → (hook h).state k = h.state k) ∧
    (∀ k, (hook h).state k ≠ h.state k →
      h.otxn_params address_param = some k ∧ k.length = 20 ∧
        (hook h).state k = some (h.ledger_last_time % 2 ^ 64)) := by
  have hns := new_seconds_absent h hs
  have hnd := new_drops_absent h hd
  have hst : ∀ k, (hook h).state k =
      if payment_guard h = true ∧ authorized h = true ∧
          0 ≤ h.state_foreign_set_result (target h) ∧ k = target h
      then some (h.ledger_last_time % U64) else h.state k := by
    intro k
    rw [hook_state, config_run_state, seconds_run_state]
    simp [hns, hnd]
  have htarget : ∀ k, payment_guard h = true → k = target h →
      h.otxn_params address_param = some k ∧ k.length = 20 := by
    intro k hg hk
    obtain ⟨_, _, R, haddr, hlen⟩ := (payment_guard_iff h).mp hg
    rw [hk, target_eq h R haddr hlen]
    exact ⟨haddr, hlen⟩
  have hchange : ∀ k, (hook h).state k ≠ h.state k →
      h.otxn_params address_param = some k ∧ k.length = 20 ∧
        (hook h).state k = some (h.ledger_last_time % 2 ^ 64) := by
    intro k hne
    by_cases hc : payment_guard h = true ∧ authorized h = true ∧
        0 ≤ h.state_foreign_set_result (target h) ∧ k = target h
    · obtain ⟨ha, hl⟩ := htarget k hc.1 hc.2.2.2
      refine ⟨ha, hl, ?_⟩
      rw [hst k, if_pos hc]
      rfl
    · exact absurd (by rw [hst k, if_neg hc]) hne
  refine ⟨?_, ?_, ?_, hchange⟩
  · rw [hook_state_value_key]; simp [hnd]
  · rw [hook_state_seconds_key]; simp [hns]
  · intro k hk
    by_contra hne
    exact hk (hchange k hne).1

/-- C20, evaluated: the invoke at 111 for `recipient` leaves both configuration entries and
the record of `stranger` as they were. -/
theorem payment_frame_witness :
    (hook (claim_at 111 (paid_store 100))).state value_key = some 500000 ∧
    (hook (claim_at 111 (paid_store 100))).state seconds_key = some 10 ∧
    (hook (claim_at 111 (paid_store 100))).state stranger
      = (claim_at 111 (paid_store 100)).state stranger :=
  have hw := payment_frame (claim_at 111 (paid_store 100)) rfl rfl
  ⟨hw.1.trans rfl, hw.2.1.trans rfl, hw.2.2.1 stranger (by decide)⟩

end Timebased
